import Mathlib

/-!
Verification development for the DragonbornVoiceControl IPC client
(`src/PipeClient.cpp`, `include/PipeClient.h`).

The embedding models the client's shared state (`PipeState`), the producer
setters, the connection engine's per-cycle outbound drain (`serviceCycle`),
the inbound line classifier (`classifyLine` / `processIncoming`), the bounded
response queue (`pushResponse` / `consumeLastResponse`), and the disconnect /
reconnect transitions (`handleDisconnect` / `connectSuccess`).

Conventions of the embedding:
* Protocol lines are `List Char`; strings stored in state are `String`.
* C++ `std::stoi` / `std::stof` are modelled by `cppStoi` / `cppStof` as
  `Option`-returning parsers (`none` models the thrown exception caught by
  the surrounding `try`/`catch`).  `cppStof` models the full `strtof`
  grammar: decimal and hexadecimal floating constants, the `inf`/`infinity`
  and `nan` spellings (successes, as in C++), and the mandatory
  `out_of_range` throw on float overflow.  ERANGE on underflow is
  implementation-defined in C (C17 7.22.1.3p10) and is modelled as the
  non-reporting choice: tiny in-range values are ordinary successes.
* A parsed score is a `FloatVal`: an exact rational for finite values (no
  rounding to 24-bit precision is modelled — the claims under verification
  only constrain the parse-failure boundary and the exact value `0`), or an
  infinity or NaN.
* Channel writes are modelled as always succeeding inside `serviceCycle`;
  the failure path is modelled separately by `handleDisconnect`.
-/

namespace DVC

/-- Replacement applied by `SanitizeInPlace`: CR and LF become a space. -/
def sanChar (c : Char) : Char :=
  if c = '\n' ∨ c = '\r' then ' ' else c

/-- Additional replacement applied by `SanitizeFavoriteField`: `|` becomes a space. -/
def sanFavChar (c : Char) : Char :=
  if c = '|' then ' ' else sanChar c

/-- `SanitizeInPlace` on a character list (PipeClient.cpp:268-275). -/
def sanitizeL (l : List Char) : List Char := l.map sanChar

/-- `SanitizeFavoriteField` on a character list (PipeClient.cpp:277-285). -/
def sanitizeFavL (l : List Char) : List Char := l.map sanFavChar

/-- `SanitizeInPlace` on a `String`. -/
def sanitizeS (s : String) : String := String.mk (sanitizeL s.toList)

/-- `SanitizeFavoriteField` on a `String`. -/
def sanitizeFavS (s : String) : String := String.mk (sanitizeFavL s.toList)

/-- `std::string::rfind(p, 0) == 0` : does `l` start with `p`? -/
def hasPrefixC : List Char → List Char → Bool
  | [], _ => true
  | _ :: _, [] => false
  | a :: as, b :: bs => if a = b then hasPrefixC as bs else false

/-- Index of the first occurrence of `c` in `l` at or after position `start`,
    modelling `std::string::find(c, start)` (`none` = `npos`). -/
def cppFindFrom (l : List Char) (c : Char) (start : Nat) : Option Nat :=
  go (l.drop start) start
where
  go : List Char → Nat → Option Nat
    | [], _ => none
    | x :: r, i => if x = c then some i else go r (i + 1)

/-- `std::string::substr(pos, len)` (all call sites use an in-range `pos`). -/
def cppSubstr (l : List Char) (pos len : Nat) : List Char :=
  (l.drop pos).take len

/-- `std::string::substr(pos)` to the end of the string. -/
def cppSubstrFrom (l : List Char) (pos : Nat) : List Char :=
  l.drop pos

/-- Numeric value of a digit string (most significant first). -/
def digitsToNat (l : List Char) : Nat :=
  l.foldl (fun acc c => 10 * acc + (c.toNat - '0'.toNat)) 0

/-- Whitespace as recognized by `strtol`/`strtof` (`isspace` in the C locale). -/
def isSpaceC (c : Char) : Bool :=
  c = ' ' || c = '\t' || c = '\n' || c = '\r' || c = '\x0b' || c = '\x0c'

/-- `std::stoi`: skip whitespace, optional sign, at least one decimal digit;
    `none` models the `invalid_argument`/`out_of_range` exception (32-bit
    `int` range check included). -/
def cppStoi (l : List Char) : Option Int :=
  let l := l.dropWhile isSpaceC
  let sign : Int := match l with
    | '-' :: _ => -1
    | _ => 1
  let l := match l with
    | '+' :: r => r
    | '-' :: r => r
    | _ => l
  let ds := l.takeWhile (·.isDigit)
  if ds = [] then none
  else
    let v : Int := sign * (digitsToNat ds : Int)
    if v < -(2 ^ 31) ∨ (2 ^ 31 - 1 : Int) < v then none else some v

/-- Exponent part consumed by `strtof` after `e`/`E`: if no digits follow,
    the exponent is not consumed and contributes `0`. -/
def expVal (l : List Char) : Int :=
  let es : Int := match l with
    | '-' :: _ => -1
    | _ => 1
  let l := match l with
    | '+' :: r => r
    | '-' :: r => r
    | _ => l
  let ds := l.takeWhile (·.isDigit)
  if ds = [] then 0 else es * (digitsToNat ds : Int)

/-- A parsed C++ `float` value: an exact rational for finite values, or an
    infinity (with its sign) or NaN. -/
inductive FloatVal
  | finite (q : Rat)
  | inf (neg : Bool)
  | nan
deriving DecidableEq, Repr

/-- Hexadecimal digit? (`strtof` hex floats accept both cases). -/
def isHexDigitC (c : Char) : Bool :=
  c.isDigit || ('a' ≤ c && c ≤ 'f') || ('A' ≤ c && c ≤ 'F')

/-- Value of a hexadecimal digit. -/
def hexDigitVal (c : Char) : Nat :=
  if c.isDigit then c.toNat - '0'.toNat
  else if 'a' ≤ c ∧ c ≤ 'f' then c.toNat - 'a'.toNat + 10
  else c.toNat - 'A'.toNat + 10

/-- Numeric value of a hex digit string (most significant first). -/
def hexToNat (l : List Char) : Nat :=
  l.foldl (fun acc c => 16 * acc + hexDigitVal c) 0

/-- Does the subject sequence (sign already stripped) start with an
    `inf`/`infinity` spelling?  `strtof` matches these case-insensitively;
    the extra letters of `infinity` do not change the value. -/
def isInfTok : List Char → Bool
  | a :: b :: c :: _ => a.toLower = 'i' && b.toLower = 'n' && c.toLower = 'f'
  | _ => false

/-- Does the subject sequence start with a `nan` spelling (an optional
    `(n-char-sequence)` payload does not change the value)? -/
def isNanTok : List Char → Bool
  | a :: b :: c :: _ => a.toLower = 'n' && b.toLower = 'a' && c.toLower = 'n'
  | _ => false

/-- Does the subject sequence start a hexadecimal floating constant: `0x` or
    `0X` followed by at least one hex digit, possibly after a period?  (With
    no hex digit, `strtof` consumes just the `0` as a decimal constant.) -/
def isHexTok : List Char → Bool
  | '0' :: x :: rest =>
    (x = 'x' || x = 'X') &&
      (match rest with
       | '.' :: c :: _ => isHexDigitC c
       | c :: _ => isHexDigitC c
       | [] => false)
  | _ => false

/-- Smallest magnitude that rounds to infinity in IEEE-754 binary32 under
    round-to-nearest-even: `2^128 - 2^103`.  At or beyond it `strtof`
    reports ERANGE and `std::stof` throws `out_of_range`. -/
def fltOverflow (v : Rat) : Bool :=
  decide ((((2 ^ 128 - 2 ^ 103 : Nat) : Rat)) ≤ |v|)

/-- Scale a rational by a signed power of a natural base (computed through
    `Nat.pow`, which stays executable for very large exponents). -/
def scalePow (base : Nat) (v : Rat) (ex : Int) : Rat :=
  if 0 ≤ ex then v * ((base ^ ex.toNat : Nat) : Rat)
  else v / ((base ^ (-ex).toNat : Nat) : Rat)

/-- The decimal branch of `strtof`: digits with optional fraction (at least
    one digit overall), optional `e`-exponent (not consumed when its digits
    are missing).  Trailing garbage is ignored; `none` models the
    `invalid_argument` exception on an empty mantissa and the `out_of_range`
    throw on overflow. -/
def cppStofDec (sign : Rat) (l : List Char) : Option FloatVal :=
  let ip := l.takeWhile (·.isDigit)
  let l1 := l.dropWhile (·.isDigit)
  let fp : List Char := match l1 with
    | '.' :: r => r.takeWhile (·.isDigit)
    | _ => []
  let l2 : List Char := match l1 with
    | '.' :: r => r.dropWhile (·.isDigit)
    | _ => l1
  if ip = [] ∧ fp = [] then none
  else
    let mant : Rat := (digitsToNat ip : Rat) + (digitsToNat fp : Rat) / ((10 ^ fp.length : Nat) : Rat)
    let ex : Int := match l2 with
      | 'e' :: r => expVal r
      | 'E' :: r => expVal r
      | _ => 0
    let v : Rat := scalePow 10 (sign * mant) ex
    if fltOverflow v then none else some (.finite v)

/-- The hexadecimal branch of `strtof` (after the `0x` prefix): hex digits
    with optional hex fraction, optional `p` binary exponent in decimal (not
    consumed when its digits are missing). -/
def cppStofHex (sign : Rat) (rest : List Char) : Option FloatVal :=
  let ip := rest.takeWhile isHexDigitC
  let l1 := rest.dropWhile isHexDigitC
  let fp : List Char := match l1 with
    | '.' :: r => r.takeWhile isHexDigitC
    | _ => []
  let l2 : List Char := match l1 with
    | '.' :: r => r.dropWhile isHexDigitC
    | _ => l1
  if ip = [] ∧ fp = [] then none
  else
    let mant : Rat := (hexToNat ip : Rat) + (hexToNat fp : Rat) / ((16 ^ fp.length : Nat) : Rat)
    let ex : Int := match l2 with
      | 'p' :: r => expVal r
      | 'P' :: r => expVal r
      | _ => 0
    let v : Rat := scalePow 2 (sign * mant) ex
    if fltOverflow v then none else some (.finite v)

/-- `std::stof` via `strtof` (C17 7.22.1.3): skip whitespace, optional sign,
    then an `inf`/`infinity` or `nan` spelling (successes), a hexadecimal
    floating constant, or a decimal floating constant.  `none` models the
    exceptions `std::stof` can throw: `invalid_argument` when no conversion
    is possible and `out_of_range` on float overflow.  ERANGE on underflow
    is implementation-defined in C and modelled as not reported (tiny
    in-range values succeed with their exact rational value). -/
def cppStof (l : List Char) : Option FloatVal :=
  let l := l.dropWhile isSpaceC
  let neg : Bool := match l with
    | '-' :: _ => true
    | _ => false
  let l := match l with
    | '+' :: r => r
    | '-' :: r => r
    | _ => l
  if isInfTok l then some (.inf neg)
  else if isNanTok l then some .nan
  else if isHexTok l then
    match l with
    | _ :: _ :: rest => cppStofHex (if neg then -1 else 1) rest
    | _ => none
  else cppStofDec (if neg then -1 else 1) l

/-- Split a buffer into the complete (newline-terminated) lines and the
    leftover partial tail, modelling the `find('\n')` / `substr` / `erase`
    loop of `ProcessIncoming` (PipeClient.cpp:316-323). -/
def splitLines : List Char → List (List Char) × List Char
  | [] => ([], [])
  | c :: rest =>
    if c = '\n' then
      let (ls, r) := splitLines rest
      ([] :: ls, r)
    else
      match splitLines rest with
      | (l :: ls, r) => ((c :: l) :: ls, r)
      | ([], r) => ([], c :: r)

/-- Split a line on a separator character (used by the favorites boundary
    recognizer; `splitOnChar c l` never returns `[]`). -/
def splitOnChar (c : Char) : List Char → List (List Char)
  | [] => [[]]
  | x :: rest =>
    let r := splitOnChar c rest
    if x = c then [] :: r
    else
      match r with
      | h :: t => (x :: h) :: t
      | [] => [[x]]

/-- `PipeResponse` (PipeClient.h:11-29), with the C++ member initializers as
    default field values.  `score` is a `FloatVal` (see file header). -/
structure PipeResponse where
  index : Int := -1
  score : FloatVal := .finite 0
  type : String := ""
  trigKind : String := ""
  trigText : String := ""
  shoutPlugin : String := ""
  shoutFormID : String := ""
  shoutPower : Int := 0
  powerFormID : String := ""
  itemFormID : String := ""
deriving DecidableEq, Repr

/-- `ShoutEntry` (PipeClient.h:31-37). -/
structure ShoutEntry where
  plugin : String
  formIdHex : String
  name : String
  editorID : String
deriving DecidableEq, Repr

/-- `PowerEntry` (PipeClient.h:39-43). -/
structure PowerEntry where
  formIdHex : String
  name : String
deriving DecidableEq, Repr

/-- `ItemEntry` (PipeClient.h:45-49). -/
structure ItemEntry where
  formIdHex : String
  name : String
deriving DecidableEq, Repr

/-- The ten sticky boolean CFG toggles, in the fixed enumeration order in
    which `ThreadMain` drains them (PipeClient.cpp:560-668). -/
inductive CfgToggle
  | OPEN | CLOSE | SHOUTS | DEBUG | SAVE_WAV | DIALOGUE_SELECT
  | WEAPONS | SPELLS | POWERS | POTIONS
deriving DecidableEq, Repr, Fintype

/-- The shared state of `PipeClient` (PipeClient.h:103-148).  Mutex/thread
    handles are not data; `_pipe` is modelled as a `Bool` (handle held or
    not).  Default field values mirror C++ default construction. -/
structure PipeState where
  connected : Bool := false
  pipe : Bool := false
  recvBuf : List Char := []
  pendingOptions : Option (List String) := none
  pendingFavorites : Option (List (List Char)) := none
  pendingClose : Bool := false
  pendingListen : Option Bool := none
  pendingListenVoiceHandle : Option Bool := none
  desiredGameLang : Option String := none
  desiredCfgOpen : Option Bool := none
  desiredCfgClose : Option Bool := none
  desiredCfgVoiceHandle : Option Bool := none
  desiredCfgDebug : Option Bool := none
  desiredCfgSaveWav : Option Bool := none
  desiredCfgDialogueSelect : Option Bool := none
  desiredCfgWeapons : Option Bool := none
  desiredCfgSpells : Option Bool := none
  desiredCfgPowers : Option Bool := none
  desiredCfgPotions : Option Bool := none
  lastSentGameLang : Option String := none
  lastSentCfgOpen : Option Bool := none
  lastSentCfgClose : Option Bool := none
  lastSentCfgVoiceHandle : Option Bool := none
  lastSentCfgDebug : Option Bool := none
  lastSentCfgSaveWav : Option Bool := none
  lastSentCfgDialogueSelect : Option Bool := none
  lastSentCfgWeapons : Option Bool := none
  lastSentCfgSpells : Option Bool := none
  lastSentCfgPowers : Option Bool := none
  lastSentCfgPotions : Option Bool := none
  responses : List PipeResponse := []
  connEvent : Option Bool := none
deriving Repr

/-- Desired value of a CFG toggle, by enumeration index. -/
def desiredCfg (s : PipeState) : CfgToggle → Option Bool
  | .OPEN => s.desiredCfgOpen
  | .CLOSE => s.desiredCfgClose
  | .SHOUTS => s.desiredCfgVoiceHandle
  | .DEBUG => s.desiredCfgDebug
  | .SAVE_WAV => s.desiredCfgSaveWav
  | .DIALOGUE_SELECT => s.desiredCfgDialogueSelect
  | .WEAPONS => s.desiredCfgWeapons
  | .SPELLS => s.desiredCfgSpells
  | .POWERS => s.desiredCfgPowers
  | .POTIONS => s.desiredCfgPotions

/-- Last transmitted value of a CFG toggle, by enumeration index. -/
def lastSentCfg (s : PipeState) : CfgToggle → Option Bool
  | .OPEN => s.lastSentCfgOpen
  | .CLOSE => s.lastSentCfgClose
  | .SHOUTS => s.lastSentCfgVoiceHandle
  | .DEBUG => s.lastSentCfgDebug
  | .SAVE_WAV => s.lastSentCfgSaveWav
  | .DIALOGUE_SELECT => s.lastSentCfgDialogueSelect
  | .WEAPONS => s.lastSentCfgWeapons
  | .SPELLS => s.lastSentCfgSpells
  | .POWERS => s.lastSentCfgPowers
  | .POTIONS => s.lastSentCfgPotions

/-- Wire name of a CFG toggle (PipeClient.cpp:563-662). -/
def cfgName : CfgToggle → String
  | .OPEN => "OPEN"
  | .CLOSE => "CLOSE"
  | .SHOUTS => "SHOUTS"
  | .DEBUG => "DEBUG"
  | .SAVE_WAV => "SAVE_WAV"
  | .DIALOGUE_SELECT => "DIALOGUE_SELECT"
  | .WEAPONS => "WEAPONS"
  | .SPELLS => "SPELLS"
  | .POWERS => "POWERS"
  | .POTIONS => "POTIONS"

/-! ## Producer setters (PipeClient.cpp:50-144, 171-233) -/

/-- `SendOptions` (PipeClient.cpp:50-54): latest-wins overwrite. -/
def sendOptions (options : List String) (s : PipeState) : PipeState :=
  { s with pendingOptions := some options }

/-- `SendClose` (PipeClient.cpp:56-60). -/
def sendClose (s : PipeState) : PipeState :=
  { s with pendingClose := true }

/-- `SendListen` (PipeClient.cpp:62-66). -/
def sendListen (flag : Bool) (s : PipeState) : PipeState :=
  { s with pendingListen := some flag }

/-- `SendListenShouts` (PipeClient.cpp:68-72). -/
def sendListenShouts (flag : Bool) (s : PipeState) : PipeState :=
  { s with pendingListenVoiceHandle := some flag }

/-- `SendGameLanguage` (PipeClient.cpp:74-84): sanitize, drop if empty. -/
def sendGameLanguage (langCode : String) (s : PipeState) : PipeState :=
  let t := sanitizeS langCode
  if t = "" then s else { s with desiredGameLang := some t }

/-- `SendConfigOpen` (PipeClient.cpp:86-90). -/
def sendConfigOpen (enabled : Bool) (s : PipeState) : PipeState :=
  { s with desiredCfgOpen := some enabled }

/-- `SendConfigClose` (PipeClient.cpp:92-96). -/
def sendConfigClose (enabled : Bool) (s : PipeState) : PipeState :=
  { s with desiredCfgClose := some enabled }

/-- `SendConfigShouts` (PipeClient.cpp:98-102). -/
def sendConfigShouts (enabled : Bool) (s : PipeState) : PipeState :=
  { s with desiredCfgVoiceHandle := some enabled }

/-- `SendConfigDebug` (PipeClient.cpp:104-108). -/
def sendConfigDebug (enabled : Bool) (s : PipeState) : PipeState :=
  { s with desiredCfgDebug := some enabled }

/-- `SendConfigSaveWav` (PipeClient.cpp:110-114). -/
def sendConfigSaveWav (enabled : Bool) (s : PipeState) : PipeState :=
  { s with desiredCfgSaveWav := some enabled }

/-- `SendConfigDialogueSelect` (PipeClient.cpp:116-120). -/
def sendConfigDialogueSelect (enabled : Bool) (s : PipeState) : PipeState :=
  { s with desiredCfgDialogueSelect := some enabled }

/-- `SendConfigWeapons` (PipeClient.cpp:122-126). -/
def sendConfigWeapons (enabled : Bool) (s : PipeState) : PipeState :=
  { s with desiredCfgWeapons := some enabled }

/-- `SendConfigSpells` (PipeClient.cpp:128-132). -/
def sendConfigSpells (enabled : Bool) (s : PipeState) : PipeState :=
  { s with desiredCfgSpells := some enabled }

/-- `SendConfigPowers` (PipeClient.cpp:134-138). -/
def sendConfigPowers (enabled : Bool) (s : PipeState) : PipeState :=
  { s with desiredCfgPowers := some enabled }

/-- `SendConfigPotions` (PipeClient.cpp:140-144). -/
def sendConfigPotions (enabled : Bool) (s : PipeState) : PipeState :=
  { s with desiredCfgPotions := some enabled }

/-- `SendShoutsAllowed` (PipeClient.cpp:146-149): the body discards its
    argument (`(void)shouts;`) and touches nothing. -/
def sendShoutsAllowed (_shouts : List ShoutEntry) (s : PipeState) : PipeState := s

/-- `SendPowersAllowed` (PipeClient.cpp:151-154): no-op body. -/
def sendPowersAllowed (_powers : List PowerEntry) (s : PipeState) : PipeState := s

/-- `SendWeaponsAllowed` (PipeClient.cpp:156-159): no-op body. -/
def sendWeaponsAllowed (_weapons : List ItemEntry) (s : PipeState) : PipeState := s

/-- `SendSpellsAllowed` (PipeClient.cpp:161-164): no-op body. -/
def sendSpellsAllowed (_spells : List ItemEntry) (s : PipeState) : PipeState := s

/-- `SendPotionsAllowed` (PipeClient.cpp:166-169): no-op body. -/
def sendPotionsAllowed (_potions : List ItemEntry) (s : PipeState) : PipeState := s

/-- A `FAV|SHOUT|...` line (PipeClient.cpp:183-193). -/
def favShoutLine (e : ShoutEntry) : List Char :=
  "FAV|SHOUT|".toList ++ sanitizeFavL e.plugin.toList ++ '|' ::
    sanitizeL e.formIdHex.toList ++ '|' :: sanitizeFavL e.name.toList ++ '|' ::
    sanitizeFavL e.editorID.toList

/-- A `FAV|POWER|...` line (PipeClient.cpp:195-201). -/
def favPowerLine (e : PowerEntry) : List Char :=
  "FAV|POWER|".toList ++ sanitizeL e.formIdHex.toList ++ '|' ::
    sanitizeFavL e.name.toList

/-- A `FAV|WEAPON|...` line (PipeClient.cpp:203-209). -/
def favWeaponLine (e : ItemEntry) : List Char :=
  "FAV|WEAPON|".toList ++ sanitizeL e.formIdHex.toList ++ '|' ::
    sanitizeFavL e.name.toList

/-- A `FAV|SPELL|...` line (PipeClient.cpp:211-217). -/
def favSpellLine (e : ItemEntry) : List Char :=
  "FAV|SPELL|".toList ++ sanitizeL e.formIdHex.toList ++ '|' ::
    sanitizeFavL e.name.toList

/-- A `FAV|POTION|...` line (PipeClient.cpp:219-225). -/
def favPotionLine (e : ItemEntry) : List Char :=
  "FAV|POTION|".toList ++ sanitizeL e.formIdHex.toList ++ '|' ::
    sanitizeFavL e.name.toList

/-- The pre-rendered favorites batch built by `SendAllFavorites`
    (PipeClient.cpp:171-227). -/
def favoritesLines (shouts : List ShoutEntry) (powers : List PowerEntry)
    (weapons spells potions : List ItemEntry) : List (List Char) :=
  "FAV|BEGIN".toList ::
    (shouts.map favShoutLine ++ powers.map favPowerLine ++
     weapons.map favWeaponLine ++ spells.map favSpellLine ++
     potions.map favPotionLine ++ ["FAV|END".toList])

/-- `SendAllFavorites` (PipeClient.cpp:171-233): render, then overwrite the
    pending favorites slot. -/
def sendAllFavorites (shouts : List ShoutEntry) (powers : List PowerEntry)
    (weapons spells potions : List ItemEntry) (s : PipeState) : PipeState :=
  { s with pendingFavorites := some (favoritesLines shouts powers weapons spells potions) }

/-! ## Inbound classifier (PipeClient.cpp:287-456) -/

/-- Decode a `RES|...` line (PipeClient.cpp:325-337).  The `catch (...)`
    branch (both parses attempted, either throwing) resets `index := -1`,
    `score := 0`; a missing second separator leaves the defaults. -/
def parseResLine (line : List Char) : PipeResponse :=
  let resp : PipeResponse := { type := "RES" }
  match cppFindFrom line '|' 4 with
  | none => resp
  | some p1 =>
    match cppStoi (cppSubstr line 4 (p1 - 4)) with
    | none => { resp with index := -1, score := .finite 0 }
    | some idx =>
      match cppStof (cppSubstrFrom line (p1 + 1)) with
      | none => { resp with index := -1, score := .finite 0 }
      | some sc => { resp with index := idx, score := sc }

/-- `TRIG|shout|...` branch (PipeClient.cpp:356-373).  `Except.error` carries
    the partially-filled response at the point of the thrown exception. -/
def parseTrigShout (line : List Char) (p1 : Nat) (resp : PipeResponse) :
    Except PipeResponse PipeResponse :=
  match cppFindFrom line '|' (p1 + 1) with
  | none => .ok resp
  | some p2 =>
    let resp := { resp with shoutPlugin := String.mk (cppSubstr line (p1 + 1) (p2 - p1 - 1)) }
    match cppFindFrom line '|' (p2 + 1) with
    | none => .ok resp
    | some p3 =>
      let resp := { resp with shoutFormID := String.mk (cppSubstr line (p2 + 1) (p3 - p2 - 1)) }
      match cppFindFrom line '|' (p3 + 1) with
      | none => .ok resp
      | some p4 =>
        match cppStoi (cppSubstr line (p3 + 1) (p4 - p3 - 1)) with
        | none => .error resp
        | some pw =>
          let resp := { resp with shoutPower := pw }
          match cppFindFrom line '|' (p4 + 1) with
          | none => .ok resp
          | some p5 =>
            match cppStof (cppSubstr line (p4 + 1) (p5 - p4 - 1)) with
            | none => .error resp
            | some sc =>
              .ok { resp with score := sc, trigText := String.mk (cppSubstrFrom line (p5 + 1)) }

/-- `TRIG|power|...` branch (PipeClient.cpp:374-386). -/
def parseTrigPower (line : List Char) (p1 : Nat) (resp : PipeResponse) :
    Except PipeResponse PipeResponse :=
  match cppFindFrom line '|' (p1 + 1) with
  | none => .ok resp
  | some p2 =>
    let resp := { resp with powerFormID := String.mk (cppSubstr line (p1 + 1) (p2 - p1 - 1)) }
    match cppFindFrom line '|' (p2 + 1) with
    | none => .ok resp
    | some p3 =>
      match cppStof (cppSubstr line (p2 + 1) (p3 - p2 - 1)) with
      | none => .error resp
      | some sc =>
        let resp := { resp with score := sc }
        match cppFindFrom line '|' (p3 + 1) with
        | none => .ok resp
        | some p4 => .ok { resp with trigText := String.mk (cppSubstrFrom line (p4 + 1)) }

/-- `TRIG|weapon|...` / `TRIG|spell|...` / `TRIG|potion|...` branch
    (PipeClient.cpp:387-397). -/
def parseTrigItem (line : List Char) (p1 : Nat) (resp : PipeResponse) :
    Except PipeResponse PipeResponse :=
  match cppFindFrom line '|' (p1 + 1) with
  | none => .ok resp
  | some p2 =>
    let resp := { resp with itemFormID := String.mk (cppSubstr line (p1 + 1) (p2 - p1 - 1)) }
    match cppFindFrom line '|' (p2 + 1) with
    | none => .ok resp
    | some p3 =>
      match cppStof (cppSubstr line (p2 + 1) (p3 - p2 - 1)) with
      | none => .error resp
      | some sc =>
        .ok { resp with score := sc, trigText := String.mk (cppSubstrFrom line (p3 + 1)) }

/-- Fallback `TRIG|<kind>|<score>|<text>` branch (PipeClient.cpp:398-404). -/
def parseTrigOther (line : List Char) (p1 : Nat) (resp : PipeResponse) :
    Except PipeResponse PipeResponse :=
  match cppFindFrom line '|' (p1 + 1) with
  | none => .ok resp
  | some p2 =>
    match cppStof (cppSubstr line (p1 + 1) (p2 - p1 - 1)) with
    | none => .error resp
    | some sc =>
      .ok { resp with score := sc, trigText := String.mk (cppSubstrFrom line (p2 + 1)) }

/-- The `try` block of the `TRIG|` decoder (PipeClient.cpp:351-405):
    `.error r` models an exception thrown with partial fields `r`. -/
def parseTrigBody (line : List Char) : Except PipeResponse PipeResponse :=
  let resp : PipeResponse := { type := "TRIG" }
  match cppFindFrom line '|' 5 with
  | none => .ok resp
  | some p1 =>
    let resp := { resp with trigKind := String.mk (cppSubstr line 5 (p1 - 5)) }
    if resp.trigKind = "shout" then parseTrigShout line p1 resp
    else if resp.trigKind = "power" then parseTrigPower line p1 resp
    else if resp.trigKind = "weapon" ∨ resp.trigKind = "spell" ∨ resp.trigKind = "potion" then
      parseTrigItem line p1 resp
    else parseTrigOther line p1 resp

/-- The `catch (...)` handler of the `TRIG|` decoder: on an exception it
    keeps the partial fields and resets `score := 0` (PipeClient.cpp:406-408). -/
def catchScore : Except PipeResponse PipeResponse → PipeResponse
  | .ok r => r
  | .error r => { r with score := .finite 0 }

/-- Decode a `TRIG|...` line (try-body plus catch handler). -/
def parseTrigLine (line : List Char) : PipeResponse :=
  catchScore (parseTrigBody line)

/-- Did the `TRIG|` decoder hit its `catch (...)` handler? -/
def trigParseThrew (line : List Char) : Bool :=
  match parseTrigBody line with
  | .error _ => true
  | .ok _ => false

/-- Did the `RES|` decoder fail on a field (missing second separator, bad
    index, or bad score)? -/
def resParseFailed (line : List Char) : Bool :=
  match cppFindFrom line '|' 4 with
  | none => true
  | some p1 =>
    (cppStoi (cppSubstr line 4 (p1 - 4))).isNone ||
    (cppStof (cppSubstrFrom line (p1 + 1))).isNone

/-- Classify one complete inbound line (PipeClient.cpp:325-454): `RES|`,
    `TRIG|` and `DBG|` lines become queued messages; anything else is only
    logged and produces no message. -/
def classifyLine (line : List Char) : Option PipeResponse :=
  if hasPrefixC "RES|".toList line then some (parseResLine line)
  else if hasPrefixC "TRIG|".toList line then some (parseTrigLine line)
  else if hasPrefixC "DBG|".toList line then
    some { type := "DBG", trigText := String.mk (cppSubstrFrom line 4) }
  else none

/-- Deposit into the bounded response queue (PipeClient.cpp:410-416):
    `push_back`, then `pop_front` once the size exceeds 128. -/
def pushResponse (q : List PipeResponse) (r : PipeResponse) : List PipeResponse :=
  if 128 < (q ++ [r]).length then (q ++ [r]).tail else q ++ [r]

/-- `ConsumeLastResponse` (PipeClient.cpp:235-244): pop the front (oldest)
    message, if any, returning it and the remaining queue. -/
def consumeLastResponse (q : List PipeResponse) : Option PipeResponse × List PipeResponse :=
  match q with
  | [] => (none, [])
  | r :: rest => (some r, rest)

/-- Process one decoded line against the queue: classified messages are
    deposited, unclassified lines leave the queue untouched. -/
def depositLine (q : List PipeResponse) (line : List Char) : List PipeResponse :=
  match classifyLine line with
  | some r => pushResponse q r
  | none => q

/-- `ProcessIncoming` (PipeClient.cpp:287-456) on a chunk of available bytes:
    requires a connected pipe, appends to the receive buffer, consumes every
    complete line, deposits classified messages.  Peek/read failures (which
    call `HandleDisconnect`) are not modelled here. -/
def processIncoming (s : PipeState) (chunk : List Char) : PipeState :=
  if ¬s.connected ∨ ¬s.pipe then s
  else if chunk = [] then s
  else
    let (lines, rest) := splitLines (s.recvBuf ++ chunk)
    { s with recvBuf := rest, responses := lines.foldl depositLine s.responses }

/-! ## Connection engine outbound drain (PipeClient.cpp:458-695)

`ThreadMain`'s connected service cycle takes `_sendMutex` once and drains, in
source order: game language, dialogue-options batch, close-signal, favorites
batch, general listen toggle, the ten CFG toggles, shout-listen toggle.  Each
block below reads and writes a disjoint set of `PipeState` fields, so the
blocks are modelled as functions of the cycle's initial state; `WriteLine` is
modelled as succeeding. -/

/-- `'1'` / `'0'` payload character of a boolean toggle. -/
def bitC (b : Bool) : Char := if b then '1' else '0'

/-- `LANG|<code>` (PipeClient.cpp:499). -/
def langLine (g : String) : List Char := "LANG|".toList ++ g.toList

/-- `OPEN|<count>` header of a dialogue-options batch (PipeClient.cpp:511). -/
def openCountLine (n : Nat) : List Char := "OPEN|".toList ++ (Nat.repr n).toList

/-- One sanitized `OPT|<text>` line (PipeClient.cpp:515-517). -/
def optLine (o : String) : List Char := sanitizeL ("OPT|".toList ++ o.toList)

/-- `LISTEN|<0|1>` (PipeClient.cpp:553). -/
def listenLine (b : Bool) : List Char := "LISTEN|".toList ++ [bitC b]

/-- `CFG|<NAME>|<0|1>` (PipeClient.cpp:563-662). -/
def cfgToggleLine (t : CfgToggle) (b : Bool) : List Char :=
  "CFG|".toList ++ (cfgName t).toList ++ '|' :: [bitC b]

/-- `LISTEN|SHOUTS|<0|1>` (PipeClient.cpp:675). -/
def listenShoutsLine (b : Bool) : List Char := "LISTEN|SHOUTS|".toList ++ [bitC b]

/-- `lastSent` after a drain: whenever `desired` is set the drain leaves
    `lastSent = desired` (it either just transmitted it or it was already
    equal); an unset `desired` leaves `lastSent` alone. -/
def stickyNext {α : Type} (desired lastSent : Option α) : Option α :=
  match desired with
  | some d => some d
  | none => lastSent

/-- Is a sticky toggle due for transmission: `desired` set and different from
    `lastSent` (or `lastSent` unset)? -/
def stickyDue {α : Type} [DecidableEq α] (desired lastSent : Option α) : Bool :=
  match desired with
  | some d => decide (lastSent ≠ some d)
  | none => false

/-- Lines emitted for one sticky toggle this cycle. -/
def stickySegOut {α : Type} [DecidableEq α] (desired lastSent : Option α)
    (mk : α → List Char) : List (List Char) :=
  match desired with
  | some d => if lastSent = some d then [] else [mk d]
  | none => []

/-- Language segment of a cycle (PipeClient.cpp:496-505). -/
def langSeg (s : PipeState) : List (List Char) :=
  stickySegOut s.desiredGameLang s.lastSentGameLang langLine

/-- Dialogue-options segment (PipeClient.cpp:507-528). -/
def optsSeg (s : PipeState) : List (List Char) :=
  match s.pendingOptions with
  | some opts => openCountLine opts.length :: opts.map optLine ++ ["END".toList]
  | none => []

/-- Close-signal segment (PipeClient.cpp:530-536). -/
def closeSeg (s : PipeState) : List (List Char) :=
  if s.pendingClose then ["CLOSE".toList] else []

/-- Favorites-batch segment (PipeClient.cpp:538-549). -/
def favSeg (s : PipeState) : List (List Char) :=
  match s.pendingFavorites with
  | some ls => ls
  | none => []

/-- General listen-toggle segment (PipeClient.cpp:551-558). -/
def listenSeg (s : PipeState) : List (List Char) :=
  match s.pendingListen with
  | some b => [listenLine b]
  | none => []

/-- One CFG-toggle segment (PipeClient.cpp:560-668). -/
def cfgSeg (s : PipeState) (t : CfgToggle) : List (List Char) :=
  stickySegOut (desiredCfg s t) (lastSentCfg s t) (cfgToggleLine t)

/-- Shout-listen segment, drained last (PipeClient.cpp:670-680). -/
def listenShoutsSeg (s : PipeState) : List (List Char) :=
  match s.pendingListenVoiceHandle with
  | some b => [listenShoutsLine b]
  | none => []

/-- Result of one outbound drain: updated state, transmitted lines in
    transmission order, and the `wroteAny` flag computed by `ThreadMain`. -/
structure CycleResult where
  state : PipeState
  lines : List (List Char)
  wroteAny : Bool
deriving Repr

/-- One connected service cycle's outbound drain (PipeClient.cpp:492-681),
    with every `WriteLine` succeeding: transmit due sticky and pending
    one-shot items in source order, clear the one-shot slots, record
    `lastSent := desired` for transmitted sticky toggles. -/
def serviceCycle (s : PipeState) : CycleResult :=
  { state := { s with
      lastSentGameLang := stickyNext s.desiredGameLang s.lastSentGameLang
      pendingOptions := none
      pendingClose := false
      pendingFavorites := none
      pendingListen := none
      lastSentCfgOpen := stickyNext s.desiredCfgOpen s.lastSentCfgOpen
      lastSentCfgClose := stickyNext s.desiredCfgClose s.lastSentCfgClose
      lastSentCfgVoiceHandle := stickyNext s.desiredCfgVoiceHandle s.lastSentCfgVoiceHandle
      lastSentCfgDebug := stickyNext s.desiredCfgDebug s.lastSentCfgDebug
      lastSentCfgSaveWav := stickyNext s.desiredCfgSaveWav s.lastSentCfgSaveWav
      lastSentCfgDialogueSelect := stickyNext s.desiredCfgDialogueSelect s.lastSentCfgDialogueSelect
      lastSentCfgWeapons := stickyNext s.desiredCfgWeapons s.lastSentCfgWeapons
      lastSentCfgSpells := stickyNext s.desiredCfgSpells s.lastSentCfgSpells
      lastSentCfgPowers := stickyNext s.desiredCfgPowers s.lastSentCfgPowers
      lastSentCfgPotions := stickyNext s.desiredCfgPotions s.lastSentCfgPotions
      pendingListenVoiceHandle := none }
    lines :=
      langSeg s ++ optsSeg s ++ closeSeg s ++ favSeg s ++ listenSeg s ++
      cfgSeg s .OPEN ++ cfgSeg s .CLOSE ++ cfgSeg s .SHOUTS ++ cfgSeg s .DEBUG ++
      cfgSeg s .SAVE_WAV ++ cfgSeg s .DIALOGUE_SELECT ++ cfgSeg s .WEAPONS ++
      cfgSeg s .SPELLS ++ cfgSeg s .POWERS ++ cfgSeg s .POTIONS ++ listenShoutsSeg s
    wroteAny :=
      stickyDue s.desiredGameLang s.lastSentGameLang || s.pendingOptions.isSome ||
      s.pendingClose || s.pendingFavorites.isSome || s.pendingListen.isSome ||
      stickyDue s.desiredCfgOpen s.lastSentCfgOpen ||
      stickyDue s.desiredCfgClose s.lastSentCfgClose ||
      stickyDue s.desiredCfgVoiceHandle s.lastSentCfgVoiceHandle ||
      stickyDue s.desiredCfgDebug s.lastSentCfgDebug ||
      stickyDue s.desiredCfgSaveWav s.lastSentCfgSaveWav ||
      stickyDue s.desiredCfgDialogueSelect s.lastSentCfgDialogueSelect ||
      stickyDue s.desiredCfgWeapons s.lastSentCfgWeapons ||
      stickyDue s.desiredCfgSpells s.lastSentCfgSpells ||
      stickyDue s.desiredCfgPowers s.lastSentCfgPowers ||
      stickyDue s.desiredCfgPotions s.lastSentCfgPotions ||
      s.pendingListenVoiceHandle.isSome }

/-- Result of a full connected loop iteration: drain, then `ProcessIncoming`,
    then the idle-sleep decision `if (!wroteAny) sleep(15ms)`
    (PipeClient.cpp:683-689). -/
structure ServeResult where
  state : PipeState
  lines : List (List Char)
  wroteAny : Bool
  readAny : Bool
  slept : Bool
deriving Repr

/-- One full connected loop iteration (PipeClient.cpp:492-689): outbound
    drain with all writes succeeding, inbound processing of the currently
    available bytes `chunk`, and the sleep decision.  `readAny` records
    whether `ProcessIncoming` actually read bytes. -/
def fullCycle (s : PipeState) (chunk : List Char) : ServeResult :=
  let c := serviceCycle s
  { state := processIncoming c.state chunk
    lines := c.lines
    wroteAny := c.wroteAny
    readAny := c.state.connected && c.state.pipe && !chunk.isEmpty
    slept := !c.wroteAny }

/-- `HandleDisconnect` (PipeClient.cpp:697-732): if already fully torn down,
    do nothing; otherwise drop the handle, clear the connected flag, reset
    every sticky `lastSent` to unset, and latch a disconnected event. -/
def handleDisconnect (s : PipeState) : PipeState :=
  if s.connected = false ∧ s.pipe = false then s
  else
    { s with
      pipe := false
      connected := false
      lastSentCfgOpen := none
      lastSentCfgClose := none
      lastSentCfgVoiceHandle := none
      lastSentCfgDebug := none
      lastSentCfgSaveWav := none
      lastSentCfgDialogueSelect := none
      lastSentCfgWeapons := none
      lastSentCfgSpells := none
      lastSentCfgPowers := none
      lastSentCfgPotions := none
      lastSentGameLang := none
      connEvent := some false }

/-- A successful connect attempt (PipeClient.cpp:476-485): adopt the handle,
    set the connected flag, latch a connected event; sticky state untouched. -/
def connectSuccess (s : PipeState) : PipeState :=
  { s with pipe := true, connected := true, connEvent := some true }

/-! ## Critical-section structure (PipeClient.cpp:493-681, 50-144) -/

/-- Atomic actions of a thread interacting with the send mutex and the
    channel, abstracted from the lock scopes in the source. -/
inductive EngineEvent
  | lockSend
  | unlockSend
  | setField
  | ioWrite (line : List Char)
  | ioRead (chunk : List Char)
deriving DecidableEq, Repr

/-- The connection engine's drain block (PipeClient.cpp:493-681): one
    `lock_guard` on `_sendMutex` whose scope contains every `WriteLine` call
    of the cycle. -/
def drainTrace (s : PipeState) : List EngineEvent :=
  EngineEvent.lockSend :: (serviceCycle s).lines.map EngineEvent.ioWrite ++
    [EngineEvent.unlockSend]

/-- The critical section of every producer setter (`SendOptions` through
    `SendConfigPotions`, PipeClient.cpp:50-144): take `_sendMutex`, assign a
    field, release; their bodies contain no channel I/O call. -/
def producerSetterTrace : List EngineEvent :=
  [EngineEvent.lockSend, EngineEvent.setField, EngineEvent.unlockSend]

/-- Does a trace contain any channel I/O action at all? -/
def hasIOEvent (tr : List EngineEvent) : Bool :=
  tr.any fun e =>
    match e with
    | .ioWrite _ => true
    | .ioRead _ => true
    | _ => false

/-- Does a trace perform channel I/O while the send mutex is held?  The
    second argument tracks whether the mutex is held entering the trace. -/
def ioWhileSendLocked : List EngineEvent → Bool → Bool
  | [], _ => false
  | e :: rest, held =>
    match e with
    | .lockSend => ioWhileSendLocked rest true
    | .unlockSend => ioWhileSendLocked rest false
    | .ioWrite _ => held || ioWhileSendLocked rest held
    | .ioRead _ => held || ioWhileSendLocked rest held
    | .setField => ioWhileSendLocked rest held

/-! ## Favorites boundary recognizer -/

/-- A typed favorites entry as recovered by the companion-side recognizer. -/
inductive FavEntry
  | shout (e : ShoutEntry)
  | power (e : PowerEntry)
  | weapon (e : ItemEntry)
  | spell (e : ItemEntry)
  | potion (e : ItemEntry)
deriving DecidableEq, Repr

/-- Modelled from the spec: the boundary recognizer that decodes one
    favorites entry line lives in the companion process and is not part of
    this repository; this definition follows the wire grammar of spec §4.1
    (`FAV|SHOUT|<plugin>|<formIdHex>|<name>|<editorId>`,
    `FAV|POWER|<formIdHex>|<name>`, likewise `WEAPON`/`SPELL`/`POTION`),
    splitting the line on the `|` separator. -/
def decodeFavLine (l : List Char) : Option FavEntry :=
  match splitOnChar '|' l with
  | [f, k, p, fid, n, eid] =>
    if f = "FAV".toList ∧ k = "SHOUT".toList then
      some (.shout ⟨String.mk p, String.mk fid, String.mk n, String.mk eid⟩)
    else none
  | [f, k, fid, n] =>
    if f = "FAV".toList then
      if k = "POWER".toList then some (.power ⟨String.mk fid, String.mk n⟩)
      else if k = "WEAPON".toList then some (.weapon ⟨String.mk fid, String.mk n⟩)
      else if k = "SPELL".toList then some (.spell ⟨String.mk fid, String.mk n⟩)
      else if k = "POTION".toList then some (.potion ⟨String.mk fid, String.mk n⟩)
      else none
    else none
  | _ => none

/-- The sanitized form of a shout entry, as it appears on the wire. -/
def sanShoutEntry (e : ShoutEntry) : ShoutEntry :=
  ⟨sanitizeFavS e.plugin, sanitizeS e.formIdHex, sanitizeFavS e.name, sanitizeFavS e.editorID⟩

/-- The sanitized form of a power entry, as it appears on the wire. -/
def sanPowerEntry (e : PowerEntry) : PowerEntry :=
  ⟨sanitizeS e.formIdHex, sanitizeFavS e.name⟩

/-- The sanitized form of a weapon/spell/potion entry, as it appears on the wire. -/
def sanItemEntry (e : ItemEntry) : ItemEntry :=
  ⟨sanitizeS e.formIdHex, sanitizeFavS e.name⟩

/-- The typed entries a correct recognizer should recover from a batch, in
    input order, with each field in sanitized form. -/
def favBatchEntries (shouts : List ShoutEntry) (powers : List PowerEntry)
    (weapons spells potions : List ItemEntry) : List FavEntry :=
  shouts.map (fun e => FavEntry.shout (sanShoutEntry e)) ++
  powers.map (fun e => FavEntry.power (sanPowerEntry e)) ++
  weapons.map (fun e => FavEntry.weapon (sanItemEntry e)) ++
  spells.map (fun e => FavEntry.spell (sanItemEntry e)) ++
  potions.map (fun e => FavEntry.potion (sanItemEntry e))

/-! ## Auxiliary definitions used by the statements below -/

/-- First two characters of a line (used to discriminate between the
    protocol's line families). -/
def disc (l : List Char) : Option (Char × Char) :=
  match l with
  | a :: b :: _ => some (a, b)
  | _ => none

/-- Every pending favorites line starts with `FAV|`.  This invariant is
    established by `sendAllFavorites`, the only writer of the slot. -/
def favLinesWellFormed (s : PipeState) : Prop :=
  ∀ l ∈ favSeg s, ∃ t, l = "FAV|".toList ++ t

/-- A sample inbound message (used to instantiate universally quantified
    statements at a concrete input). -/
def sampleResponse : PipeResponse := {}

/-- A connected state with nothing pending and nothing due. -/
def idleConnectedState : PipeState := { connected := true, pipe := true }

/-- A state in which both the CFG-shouts toggle and the shout-listen toggle
    are due. -/
def bothShoutsDueState : PipeState :=
  { desiredCfgVoiceHandle := some true, pendingListenVoiceHandle := some true }

/-- A connected state with a desired game language and a desired CFG-shouts
    value, as before a disconnect. -/
def connectedConfiguredState : PipeState :=
  { connected := true, pipe := true, desiredGameLang := some "en",
    desiredCfgVoiceHandle := some true, lastSentGameLang := some "en",
    lastSentCfgVoiceHandle := some true }

/-!
# Theorems
-/

/-- An `Option` whose `isSome` is `false` is `none`. -/
theorem eq_none_of_isSome_false {β : Type} {o : Option β} (h : o.isSome = false) : o = none := by
  cases o with
  | none => rfl
  | some x => simp at h

/-- `hasPrefixC` agrees with the existence of a split. -/
theorem hasPrefixC_iff (p l : List Char) : hasPrefixC p l = true ↔ ∃ t, l = p ++ t := by
  induction p generalizing l with
  | nil =>
    simp only [hasPrefixC, List.nil_append, true_iff]
    exact ⟨l, rfl⟩
  | cons a as ih =>
    cases l with
    | nil =>
      simp [hasPrefixC]
    | cons b bs =>
      simp only [hasPrefixC]
      by_cases hab : a = b
      · subst hab
        simp [ih]
      · simp [hab, Ne.symm hab]

/-- A deposit never drops the newly deposited message. -/
theorem mem_pushResponse (q : List PipeResponse) (r : PipeResponse) :
    r ∈ pushResponse q r := by
  cases q with
  | nil => simp [pushResponse]
  | cons x xs =>
    unfold pushResponse
    split
    · simp
    · simp

/-- A sticky toggle that is not due emits nothing. -/
theorem stickySegOut_eq_nil_of_not_due {α : Type} [DecidableEq α]
    (d ls : Option α) (mk : α → List Char) (h : stickyDue d ls = false) :
    stickySegOut d ls mk = [] := by
  cases d with
  | none => rfl
  | some x =>
    simp only [stickyDue, decide_eq_false_iff_not, ne_eq, not_not] at h
    simp [stickySegOut, h]

/-- After a drain, no sticky toggle is due. -/
theorem stickySegOut_after_drain {α : Type} [DecidableEq α]
    (d ls : Option α) (mk : α → List Char) :
    stickySegOut d (stickyNext d ls) mk = [] := by
  cases d <;> simp [stickySegOut, stickyNext]

/-- C10: each of the five grammar-sync operations `SendShoutsAllowed`,
    `SendPowersAllowed`, `SendWeaponsAllowed`, `SendSpellsAllowed` and
    `SendPotionsAllowed` is a complete no-op: for every argument it leaves
    the whole client state unchanged, and consequently the next service
    cycle transmits exactly what it would have transmitted anyway. -/
theorem grammar_sync_noop :
    (∀ (shouts : List ShoutEntry) (s : PipeState), sendShoutsAllowed shouts s = s) ∧
    (∀ (powers : List PowerEntry) (s : PipeState), sendPowersAllowed powers s = s) ∧
    (∀ (weapons : List ItemEntry) (s : PipeState), sendWeaponsAllowed weapons s = s) ∧
    (∀ (spells : List ItemEntry) (s : PipeState), sendSpellsAllowed spells s = s) ∧
    (∀ (potions : List ItemEntry) (s : PipeState), sendPotionsAllowed potions s = s) ∧
    (∀ (shouts : List ShoutEntry) (s : PipeState),
      serviceCycle (sendShoutsAllowed shouts s) = serviceCycle s) :=
  ⟨fun _ _ => rfl, fun _ _ => rfl, fun _ _ => rfl, fun _ _ => rfl, fun _ _ => rfl,
   fun _ _ => rfl⟩

/-- C3: every one-shot command coalesces (the second set before a drain
    overwrites the first), the drain transmits the second value's encoding,
    and draining clears the pending slot so the following cycle transmits
    nothing for it. -/
theorem oneshot_coalescing (s : PipeState) (a b : List String) (x y : Bool)
    (sh1 sh2 : List ShoutEntry) (pw1 pw2 : List PowerEntry)
    (wp1 wp2 sp1 sp2 pt1 pt2 : List ItemEntry) :
    (sendOptions b (sendOptions a s) = sendOptions b s ∧
      optsSeg (sendOptions b s) = openCountLine b.length :: b.map optLine ++ ["END".toList] ∧
      (serviceCycle (sendOptions b s)).state.pendingOptions = none ∧
      optsSeg (serviceCycle (sendOptions b s)).state = []) ∧
    (sendClose (sendClose s) = sendClose s ∧
      closeSeg (sendClose s) = ["CLOSE".toList] ∧
      (serviceCycle (sendClose s)).state.pendingClose = false ∧
      closeSeg (serviceCycle (sendClose s)).state = []) ∧
    (sendAllFavorites sh2 pw2 wp2 sp2 pt2 (sendAllFavorites sh1 pw1 wp1 sp1 pt1 s) =
        sendAllFavorites sh2 pw2 wp2 sp2 pt2 s ∧
      favSeg (sendAllFavorites sh2 pw2 wp2 sp2 pt2 s) = favoritesLines sh2 pw2 wp2 sp2 pt2 ∧
      (serviceCycle (sendAllFavorites sh2 pw2 wp2 sp2 pt2 s)).state.pendingFavorites = none ∧
      favSeg (serviceCycle (sendAllFavorites sh2 pw2 wp2 sp2 pt2 s)).state = []) ∧
    (sendListen y (sendListen x s) = sendListen y s ∧
      listenSeg (sendListen y s) = [listenLine y] ∧
      (serviceCycle (sendListen y s)).state.pendingListen = none ∧
      listenSeg (serviceCycle (sendListen y s)).state = []) ∧
    (sendListenShouts y (sendListenShouts x s) = sendListenShouts y s ∧
      listenShoutsSeg (sendListenShouts y s) = [listenShoutsLine y] ∧
      (serviceCycle (sendListenShouts y s)).state.pendingListenVoiceHandle = none ∧
      listenShoutsSeg (serviceCycle (sendListenShouts y s)).state = []) := by
  refine ⟨⟨rfl, rfl, rfl, rfl⟩, ⟨rfl, rfl, rfl, rfl⟩, ⟨rfl, rfl, rfl, rfl⟩,
    ⟨rfl, rfl, rfl, rfl⟩, ⟨rfl, rfl, rfl, rfl⟩⟩

/-- C8 counterexample: a connected, idle cycle with a complete `RES` line
    available to read transmits nothing, reads something, and the engine
    nevertheless sleeps — so "sleeps iff nothing was transmitted and nothing
    was read" is false as stated (the sleep decision ignores reads,
    PipeClient.cpp:685-687). -/
theorem idle_sleep_despite_read_cex :
    (fullCycle idleConnectedState "RES|1|2\n".toList).slept = true ∧
    (fullCycle idleConnectedState "RES|1|2\n".toList).readAny = true ∧
    (fullCycle idleConnectedState "RES|1|2\n".toList).lines = [] := by
  refine ⟨rfl, by decide, rfl⟩

/-- C8 (amended): the engine sleeps after a connected cycle iff nothing was
    drained for transmission (`wroteAny = false`); the decision is
    independent of what was read, and a sleeping cycle indeed transmitted
    nothing. -/
theorem sleep_iff_nothing_transmitted (s : PipeState) (chunk chunk' : List Char) :
    ((fullCycle s chunk).slept = true ↔ (serviceCycle s).wroteAny = false) ∧
    (fullCycle s chunk).slept = (fullCycle s chunk').slept ∧
    ((fullCycle s chunk).slept = true → (fullCycle s chunk).lines = []) := by
  refine ⟨by simp [fullCycle], rfl, ?_⟩
  intro h
  simp only [fullCycle, Bool.not_eq_true'] at h
  simp only [fullCycle]
  simp only [serviceCycle, Bool.or_eq_false_iff] at h ⊢
  obtain ⟨⟨⟨⟨⟨⟨⟨⟨⟨⟨⟨⟨⟨⟨⟨h1, h2⟩, h3⟩, h4⟩, h5⟩, h6⟩, h7⟩, h8⟩, h9⟩, h10⟩,
    h11⟩, h12⟩, h13⟩, h14⟩, h15⟩, h16⟩ := h
  replace h2 := eq_none_of_isSome_false h2
  replace h4 := eq_none_of_isSome_false h4
  replace h5 := eq_none_of_isSome_false h5
  replace h16 := eq_none_of_isSome_false h16
  have hl : langSeg s = [] := stickySegOut_eq_nil_of_not_due _ _ _ h1
  have ho : optsSeg s = [] := by simp [optsSeg, h2]
  have hc : closeSeg s = [] := by simp [closeSeg, h3]
  have hf : favSeg s = [] := by simp [favSeg, h4]
  have hli : listenSeg s = [] := by simp [listenSeg, h5]
  have hlsh : listenShoutsSeg s = [] := by simp [listenShoutsSeg, h16]
  simp [langSeg] at hl
  simp [cfgSeg, desiredCfg, lastSentCfg, hl, ho, hc, hf, hli, hlsh,
    stickySegOut_eq_nil_of_not_due _ _ _ h6, stickySegOut_eq_nil_of_not_due _ _ _ h7,
    stickySegOut_eq_nil_of_not_due _ _ _ h8, stickySegOut_eq_nil_of_not_due _ _ _ h9,
    stickySegOut_eq_nil_of_not_due _ _ _ h10, stickySegOut_eq_nil_of_not_due _ _ _ h11,
    stickySegOut_eq_nil_of_not_due _ _ _ h12, stickySegOut_eq_nil_of_not_due _ _ _ h13,
    stickySegOut_eq_nil_of_not_due _ _ _ h14, stickySegOut_eq_nil_of_not_due _ _ _ h15]
  exact stickySegOut_eq_nil_of_not_due _ _ _ h1

/-- C8 witness: instantiation at the idle connected state with a nonempty
    inbound chunk: the sleep happens there because nothing was drained. -/
theorem sleep_iff_nothing_transmitted_witness :
    (fullCycle idleConnectedState "RES|1|2\n".toList).slept = true ∧
    (fullCycle idleConnectedState "RES|1|2\n".toList).lines = [] :=
  ⟨rfl, (sleep_iff_nothing_transmitted idleConnectedState "RES|1|2\n".toList []).2.2 rfl⟩

/-- Taking the send mutex flips the held flag. -/
theorem ioWhileSendLocked_lockSend (tr : List EngineEvent) :
    ioWhileSendLocked (EngineEvent.lockSend :: tr) false = ioWhileSendLocked tr true := rfl

/-- Channel writes under the held send mutex detect exactly the cycles that
    transmit something. -/
theorem ioWhileSendLocked_writes (ls : List (List Char)) :
    ioWhileSendLocked (ls.map EngineEvent.ioWrite ++ [EngineEvent.unlockSend]) true =
      !ls.isEmpty := by
  cases ls with
  | nil => rfl
  | cons l rest => simp [ioWhileSendLocked]

/-- C9 counterexample: with one due CFG toggle, the connection engine's
    drain block performs a channel write while `_sendMutex` is held
    (PipeClient.cpp:494 scopes the lock over every `WriteLine` of the
    cycle) — so "no I/O performed while the lock is held" is false as
    stated. -/
theorem io_under_send_lock_cex :
    ioWhileSendLocked (drainTrace ({ desiredCfgOpen := some true } : PipeState)) false = true ∧
    hasIOEvent (drainTrace ({ desiredCfgOpen := some true } : PipeState)) = true := by
  constructor <;> rfl

/-- C9 (amended): the producer setters themselves perform no I/O inside
    their `_sendMutex` critical sections, but the connection engine holds
    that same mutex across its channel writes — it performs I/O under the
    send lock exactly when the cycle transmits anything — so a producer
    setter can wait on an engine channel write. -/
theorem setter_critical_sections (s : PipeState) :
    hasIOEvent producerSetterTrace = false ∧
    (ioWhileSendLocked (drainTrace s) false = true ↔ (serviceCycle s).lines ≠ []) := by
  refine ⟨rfl, ?_⟩
  unfold drainTrace
  rw [List.cons_append, ioWhileSendLocked_lockSend, ioWhileSendLocked_writes]
  simp

/-- C9 witness: at a state with one due CFG toggle, the engine's drain
    performs I/O under the send lock. -/
theorem setter_critical_sections_witness :
    ioWhileSendLocked (drainTrace ({ desiredCfgClose := some false } : PipeState)) false = true :=
  (setter_critical_sections _).2.mpr (by decide)

/-- Depositing a sequence of messages into a queue that is within capacity
    keeps exactly the most recent 128 entries of the combined sequence, in
    order (drop-oldest semantics of `pushResponse`). -/
theorem foldl_pushResponse (ms : List PipeResponse) :
    ∀ q : List PipeResponse, q.length ≤ 128 →
      List.foldl pushResponse q ms = (q ++ ms).drop (q.length + ms.length - 128) := by
  induction ms with
  | nil =>
    intro q h
    simp [Nat.sub_eq_zero_of_le h]
  | cons m rest ih =>
    intro q h
    rw [List.foldl_cons]
    rcases Nat.lt_or_ge q.length 128 with hq | hq
    · have hcond : ¬ 128 < (q ++ [m]).length := by
        simp only [List.length_append, List.length_cons, List.length_nil]
        omega
      have hpush : pushResponse q m = q ++ [m] := by
        unfold pushResponse
        rw [if_neg hcond]
      have hlen : (q ++ [m]).length ≤ 128 := by
        simp only [List.length_append, List.length_cons, List.length_nil]
        omega
      rw [hpush, ih (q ++ [m]) hlen]
      rw [List.append_assoc, List.singleton_append]
      have hidx : (q ++ [m]).length + rest.length - 128
          = q.length + (m :: rest).length - 128 := by
        simp only [List.length_append, List.length_cons, List.length_nil, List.length_cons]
        omega
      rw [hidx]
    · have hq' : q.length = 128 := le_antisymm h hq
      have hcond : 128 < (q ++ [m]).length := by
        simp only [List.length_append, List.length_cons, List.length_nil]
        omega
      have hpush : pushResponse q m = (q ++ [m]).tail := by
        unfold pushResponse
        rw [if_pos hcond]
      have hlen : ((q ++ [m]).tail).length ≤ 128 := by
        simp only [List.length_tail, List.length_append, List.length_cons, List.length_nil]
        omega
      rw [hpush, ih ((q ++ [m]).tail) hlen]
      rw [← List.drop_one, ← List.drop_append_of_le_length (by simp), List.drop_drop]
      rw [List.append_assoc, List.singleton_append]
      have hidx : 1 + (((q ++ [m]).drop 1).length + rest.length - 128)
          = q.length + (m :: rest).length - 128 := by
        simp only [List.length_drop, List.length_append, List.length_cons, List.length_nil,
          List.length_cons, hq']
        omega
      rw [hidx]

/-- C4: the response queue holds at most 128 messages after any deposit;
    depositing 200 messages into an empty queue leaves exactly the most
    recent 128, in their original order (the 128-element suffix), and the
    consumer's pop returns the oldest remaining message. -/
theorem response_queue_bounded (ms : List PipeResponse) (h : ms.length = 200) :
    List.foldl pushResponse [] ms = ms.drop 72 ∧
    (List.foldl pushResponse [] ms).length = 128 ∧
    (∀ (q : List PipeResponse) (r : PipeResponse),
      q.length ≤ 128 → (pushResponse q r).length ≤ 128) ∧
    (∀ (r : PipeResponse) (rest : List PipeResponse),
      consumeLastResponse (r :: rest) = (some r, rest)) := by
  have h1 : List.foldl pushResponse [] ms = ms.drop 72 := by
    rw [foldl_pushResponse ms [] (by simp)]
    simp [h]
  refine ⟨h1, ?_, ?_, fun _ _ => rfl⟩
  · rw [h1]
    simp [h]
  · intro q r hq
    unfold pushResponse
    by_cases hc : 128 < (q ++ [r]).length
    · rw [if_pos hc]
      simp only [List.length_tail, List.length_append, List.length_cons, List.length_nil]
      omega
    · rw [if_neg hc]
      simp only [List.length_append, List.length_cons, List.length_nil] at hc ⊢
      omega

/-- C4 witness: 200 copies of the sample message. -/
theorem response_queue_bounded_witness :
    (List.replicate 200 sampleResponse).length = 200 ∧
    (List.foldl pushResponse [] (List.replicate 200 sampleResponse) =
      (List.replicate 200 sampleResponse).drop 72 ∧
     (List.foldl pushResponse [] (List.replicate 200 sampleResponse)).length = 128 ∧
     (∀ (q : List PipeResponse) (r : PipeResponse),
       q.length ≤ 128 → (pushResponse q r).length ≤ 128) ∧
     (∀ (r : PipeResponse) (rest : List PipeResponse),
       consumeLastResponse (r :: rest) = (some r, rest))) :=
  ⟨by rw [List.length_replicate], response_queue_bounded _ (by rw [List.length_replicate])⟩

/-- C5: every `RES|` line decodes, without any exception escaping, to a
    queued `Result` message; whenever the index field or the score field
    fails to parse — including a missing second separator — the message
    carries `index = -1` and `score = 0.0` (the finite zero). -/
theorem res_decode_robust (l : List Char) (h : hasPrefixC "RES|".toList l = true) :
    classifyLine l = some (parseResLine l) ∧
    (parseResLine l).type = "RES" ∧
    (resParseFailed l = true →
      (parseResLine l).index = -1 ∧ (parseResLine l).score = .finite 0) := by
  have hclass : classifyLine l = some (parseResLine l) := by
    unfold classifyLine
    rw [h]
    simp
  refine ⟨hclass, ?_, ?_⟩
  · unfold parseResLine
    split
    · rfl
    · split
      · rfl
      · split <;> rfl
  · intro hfail
    unfold resParseFailed at hfail
    unfold parseResLine
    split
    · exact ⟨rfl, rfl⟩
    · rename_i p1 hf
      rw [hf] at hfail
      simp only [Bool.or_eq_true, Option.isNone_iff_eq_none] at hfail
      split
      · exact ⟨rfl, rfl⟩
      · rename_i idx hs
        split
        · exact ⟨rfl, rfl⟩
        · rename_i sc ht
          rcases hfail with hx | hx
          · rw [hs] at hx
            cases hx
          · rw [ht] at hx
            cases hx

/-- C5 witness: `"RES|abc|xyz"` (both fields unparseable). -/
theorem res_decode_robust_witness :
    hasPrefixC "RES|".toList "RES|abc|xyz".toList = true ∧
    resParseFailed "RES|abc|xyz".toList = true ∧
    ((parseResLine "RES|abc|xyz".toList).index = -1 ∧
      (parseResLine "RES|abc|xyz".toList).score = .finite 0) :=
  ⟨by decide, by decide, (res_decode_robust _ (by decide)).2.2 (by decide)⟩

/-- The shout branch of the `TRIG` decoder never touches `trigKind` or
    `type`, with or without an exception. -/
theorem parseTrigShout_preserves (l : List Char) (p1 : Nat) (r : PipeResponse) :
    (catchScore (parseTrigShout l p1 r)).trigKind = r.trigKind ∧
    (catchScore (parseTrigShout l p1 r)).type = r.type := by
  simp only [parseTrigShout]
  repeat' split
  all_goals simp [catchScore]

/-- The power branch of the `TRIG` decoder never touches `trigKind` or
    `type`. -/
theorem parseTrigPower_preserves (l : List Char) (p1 : Nat) (r : PipeResponse) :
    (catchScore (parseTrigPower l p1 r)).trigKind = r.trigKind ∧
    (catchScore (parseTrigPower l p1 r)).type = r.type := by
  simp only [parseTrigPower]
  repeat' split
  all_goals simp [catchScore]

/-- The weapon/spell/potion branch of the `TRIG` decoder never touches
    `trigKind` or `type`. -/
theorem parseTrigItem_preserves (l : List Char) (p1 : Nat) (r : PipeResponse) :
    (catchScore (parseTrigItem l p1 r)).trigKind = r.trigKind ∧
    (catchScore (parseTrigItem l p1 r)).type = r.type := by
  simp only [parseTrigItem]
  repeat' split
  all_goals simp [catchScore]

/-- The fallback branch of the `TRIG` decoder never touches `trigKind` or
    `type`. -/
theorem parseTrigOther_preserves (l : List Char) (p1 : Nat) (r : PipeResponse) :
    (catchScore (parseTrigOther l p1 r)).trigKind = r.trigKind ∧
    (catchScore (parseTrigOther l p1 r)).type = r.type := by
  simp only [parseTrigOther]
  repeat' split
  all_goals simp [catchScore]

/-- Once the shout branch has found its plugin separator, the extracted
    plugin survives every later outcome, failure included. -/
theorem parseTrigShout_plugin (l : List Char) (p1 : Nat) (r : PipeResponse) (p2 : Nat)
    (hp2 : cppFindFrom l '|' (p1 + 1) = some p2) :
    (catchScore (parseTrigShout l p1 r)).shoutPlugin =
      String.mk (cppSubstr l (p1 + 1) (p2 - p1 - 1)) := by
  unfold parseTrigShout
  simp only [hp2]
  repeat' split
  all_goals simp [catchScore]

/-- Once the shout branch has found its form-id separator, the extracted
    form id survives every later outcome, failure included. -/
theorem parseTrigShout_formID (l : List Char) (p1 : Nat) (r : PipeResponse) (p2 p3 : Nat)
    (hp2 : cppFindFrom l '|' (p1 + 1) = some p2)
    (hp3 : cppFindFrom l '|' (p2 + 1) = some p3) :
    (catchScore (parseTrigShout l p1 r)).shoutFormID =
      String.mk (cppSubstr l (p2 + 1) (p3 - p2 - 1)) := by
  unfold parseTrigShout
  simp only [hp2, hp3]
  repeat' split
  all_goals simp [catchScore]

/-- Once the power branch has found its form-id separator, the extracted
    form id survives every later outcome, failure included. -/
theorem parseTrigPower_formID (l : List Char) (p1 : Nat) (r : PipeResponse) (p2 : Nat)
    (hp2 : cppFindFrom l '|' (p1 + 1) = some p2) :
    (catchScore (parseTrigPower l p1 r)).powerFormID =
      String.mk (cppSubstr l (p1 + 1) (p2 - p1 - 1)) := by
  unfold parseTrigPower
  simp only [hp2]
  repeat' split
  all_goals simp [catchScore]

/-- Once the weapon/spell/potion branch has found its form-id separator, the
    extracted form id survives every later outcome, failure included. -/
theorem parseTrigItem_formID (l : List Char) (p1 : Nat) (r : PipeResponse) (p2 : Nat)
    (hp2 : cppFindFrom l '|' (p1 + 1) = some p2) :
    (catchScore (parseTrigItem l p1 r)).itemFormID =
      String.mk (cppSubstr l (p1 + 1) (p2 - p1 - 1)) := by
  unfold parseTrigItem
  simp only [hp2]
  repeat' split
  all_goals simp [catchScore]

/-- C6: every `TRIG|` line decodes, without any exception escaping, to a
    `Trigger` message that is always deposited into the response queue
    (never dropped, even when the queue evicts its oldest entry); on any
    parse failure the message has `score = 0.0` and retains every
    best-effort partial field extracted before the failure point (the catch
    handler only zeroes the score): the kind survives whenever its separator
    was found, and the shout plugin, shout form id, power form id and
    weapon/spell/potion form id each survive whenever their separators were
    found in their branch, regardless of any later parse failure. -/
theorem trig_decode_robust (l : List Char) (h : hasPrefixC "TRIG|".toList l = true) :
    classifyLine l = some (parseTrigLine l) ∧
    (∀ q : List PipeResponse, depositLine q l = pushResponse q (parseTrigLine l)) ∧
    (∀ q : List PipeResponse, parseTrigLine l ∈ pushResponse q (parseTrigLine l)) ∧
    (parseTrigLine l).type = "TRIG" ∧
    (trigParseThrew l = true → (parseTrigLine l).score = .finite 0) ∧
    (∀ r, parseTrigBody l = .error r →
      parseTrigLine l = { r with score := .finite 0 }) ∧
    (∀ p1, cppFindFrom l '|' 5 = some p1 →
      (parseTrigLine l).trigKind = String.mk (cppSubstr l 5 (p1 - 5))) ∧
    (∀ p1 p2, cppFindFrom l '|' 5 = some p1 →
      String.mk (cppSubstr l 5 (p1 - 5)) = "shout" →
      cppFindFrom l '|' (p1 + 1) = some p2 →
      (parseTrigLine l).shoutPlugin = String.mk (cppSubstr l (p1 + 1) (p2 - p1 - 1))) ∧
    (∀ p1 p2 p3, cppFindFrom l '|' 5 = some p1 →
      String.mk (cppSubstr l 5 (p1 - 5)) = "shout" →
      cppFindFrom l '|' (p1 + 1) = some p2 →
      cppFindFrom l '|' (p2 + 1) = some p3 →
      (parseTrigLine l).shoutFormID = String.mk (cppSubstr l (p2 + 1) (p3 - p2 - 1))) ∧
    (∀ p1 p2, cppFindFrom l '|' 5 = some p1 →
      String.mk (cppSubstr l 5 (p1 - 5)) = "power" →
      cppFindFrom l '|' (p1 + 1) = some p2 →
      (parseTrigLine l).powerFormID = String.mk (cppSubstr l (p1 + 1) (p2 - p1 - 1))) ∧
    (∀ p1 p2, cppFindFrom l '|' 5 = some p1 →
      (String.mk (cppSubstr l 5 (p1 - 5)) = "weapon" ∨
       String.mk (cppSubstr l 5 (p1 - 5)) = "spell" ∨
       String.mk (cppSubstr l 5 (p1 - 5)) = "potion") →
      cppFindFrom l '|' (p1 + 1) = some p2 →
      (parseTrigLine l).itemFormID = String.mk (cppSubstr l (p1 + 1) (p2 - p1 - 1))) := by
  have hres : hasPrefixC "RES|".toList l = false := by
    obtain ⟨t, rfl⟩ := (hasPrefixC_iff _ _).mp h
    rfl
  have hclass : classifyLine l = some (parseTrigLine l) := by
    unfold classifyLine
    rw [h, hres]
    simp
  refine ⟨hclass, ?_, ?_, ?_, ?_, ?_, ?_, ?_, ?_, ?_, ?_⟩
  · intro q
    unfold depositLine
    rw [hclass]
  · intro q
    exact mem_pushResponse q (parseTrigLine l)
  · simp only [parseTrigLine, parseTrigBody]
    split
    · rfl
    · repeat' split
      all_goals
        first
        | exact (parseTrigShout_preserves _ _ _).2
        | exact (parseTrigPower_preserves _ _ _).2
        | exact (parseTrigItem_preserves _ _ _).2
        | exact (parseTrigOther_preserves _ _ _).2
  · intro hthrew
    unfold trigParseThrew at hthrew
    unfold parseTrigLine
    rcases hb : parseTrigBody l with r | r
    · simp [catchScore]
    · rw [hb] at hthrew
      simp at hthrew
  · intro r hb
    unfold parseTrigLine
    rw [hb]
    rfl
  · intro p1 hp1
    simp only [parseTrigLine, parseTrigBody]
    split
    · rename_i heq
      rw [heq] at hp1
      cases hp1
    · rename_i p1' heq
      rw [heq] at hp1
      injection hp1 with hpp
      subst hpp
      repeat' split
      all_goals
        first
        | exact (parseTrigShout_preserves _ _ _).1
        | exact (parseTrigPower_preserves _ _ _).1
        | exact (parseTrigItem_preserves _ _ _).1
        | exact (parseTrigOther_preserves _ _ _).1
  · intro p1 p2 hp1 hkind hp2
    simp only [parseTrigLine, parseTrigBody]
    split
    · rename_i heq
      rw [heq] at hp1
      cases hp1
    · rename_i p1' heq
      rw [heq] at hp1
      injection hp1 with hpp
      subst hpp
      rw [if_pos hkind]
      exact parseTrigShout_plugin l p1' _ p2 hp2
  · intro p1 p2 p3 hp1 hkind hp2 hp3
    simp only [parseTrigLine, parseTrigBody]
    split
    · rename_i heq
      rw [heq] at hp1
      cases hp1
    · rename_i p1' heq
      rw [heq] at hp1
      injection hp1 with hpp
      subst hpp
      rw [if_pos hkind]
      exact parseTrigShout_formID l p1' _ p2 p3 hp2 hp3
  · intro p1 p2 hp1 hkind hp2
    simp only [parseTrigLine, parseTrigBody]
    split
    · rename_i heq
      rw [heq] at hp1
      cases hp1
    · rename_i p1' heq
      rw [heq] at hp1
      injection hp1 with hpp
      subst hpp
      rw [hkind]
      rw [if_neg (by decide), if_pos rfl]
      exact parseTrigPower_formID l p1' _ p2 hp2
  · intro p1 p2 hp1 hkind hp2
    simp only [parseTrigLine, parseTrigBody]
    split
    · rename_i heq
      rw [heq] at hp1
      cases hp1
    · rename_i p1' heq
      rw [heq] at hp1
      injection hp1 with hpp
      subst hpp
      rcases hkind with hk | hk | hk <;> rw [hk] <;>
        rw [if_neg (by decide), if_neg (by decide), if_pos (by decide)] <;>
        exact parseTrigItem_formID l p1' _ p2 hp2

/-- C6 witness: a `TRIG|shout` line whose power field is unparseable — the
    kind, plugin and form-id fields extracted before the failure are
    retained, the score is zeroed, and the message is still deposited. -/
theorem trig_decode_robust_witness :
    hasPrefixC "TRIG|".toList "TRIG|shout|Skyrim.esm|0x13E09|zz|0.9|x".toList = true ∧
    trigParseThrew "TRIG|shout|Skyrim.esm|0x13E09|zz|0.9|x".toList = true ∧
    (parseTrigLine "TRIG|shout|Skyrim.esm|0x13E09|zz|0.9|x".toList).score = FloatVal.finite 0 ∧
    (parseTrigLine "TRIG|shout|Skyrim.esm|0x13E09|zz|0.9|x".toList).trigKind = "shout" ∧
    (parseTrigLine "TRIG|shout|Skyrim.esm|0x13E09|zz|0.9|x".toList).shoutPlugin = "Skyrim.esm" ∧
    (parseTrigLine "TRIG|shout|Skyrim.esm|0x13E09|zz|0.9|x".toList).shoutFormID = "0x13E09" ∧
    depositLine [] "TRIG|shout|Skyrim.esm|0x13E09|zz|0.9|x".toList =
      [parseTrigLine "TRIG|shout|Skyrim.esm|0x13E09|zz|0.9|x".toList] := by
  have h := trig_decode_robust "TRIG|shout|Skyrim.esm|0x13E09|zz|0.9|x".toList (by decide)
  refine ⟨by decide, by decide, h.2.2.2.2.1 (by decide), ?_, ?_, ?_, ?_⟩
  · rw [h.2.2.2.2.2.2.1 10 (by decide)]
    decide
  · rw [h.2.2.2.2.2.2.2.1 10 21 (by decide) (by decide) (by decide)]
    decide
  · rw [h.2.2.2.2.2.2.2.2.1 10 21 29 (by decide) (by decide) (by decide) (by decide)]
    decide
  · rw [h.2.1]
    rfl

/-- C2: a service cycle transmits the due items in the fixed total order
    language, dialogue-options batch, close-signal, favorites batch, general
    listen toggle, the ten CFG toggles in enumeration order OPEN, CLOSE,
    SHOUTS, DEBUG, SAVE_WAV, DIALOGUE_SELECT, WEAPONS, SPELLS, POWERS,
    POTIONS, and finally the shout-listen toggle; in particular, whenever the
    CFG-shouts toggle and the shout-listen toggle are both due in the same
    cycle, the `CFG|SHOUTS` line is emitted strictly before the
    `LISTEN|SHOUTS` line. -/
theorem cycle_transmit_order (s : PipeState) (v w : Bool)
    (hd : s.desiredCfgVoiceHandle = some v)
    (hls : s.lastSentCfgVoiceHandle ≠ some v)
    (hp : s.pendingListenVoiceHandle = some w) :
    (serviceCycle s).lines =
      langSeg s ++ optsSeg s ++ closeSeg s ++ favSeg s ++ listenSeg s ++
      cfgSeg s .OPEN ++ cfgSeg s .CLOSE ++ cfgSeg s .SHOUTS ++ cfgSeg s .DEBUG ++
      cfgSeg s .SAVE_WAV ++ cfgSeg s .DIALOGUE_SELECT ++ cfgSeg s .WEAPONS ++
      cfgSeg s .SPELLS ++ cfgSeg s .POWERS ++ cfgSeg s .POTIONS ++
      listenShoutsSeg s ∧
    ∃ pre mid, (serviceCycle s).lines =
      pre ++ cfgToggleLine .SHOUTS v :: (mid ++ [listenShoutsLine w]) := by
  refine ⟨rfl, ?_⟩
  have h1 : cfgSeg s .SHOUTS = [cfgToggleLine .SHOUTS v] := by
    unfold cfgSeg stickySegOut
    rw [show desiredCfg s .SHOUTS = s.desiredCfgVoiceHandle from rfl,
      show lastSentCfg s .SHOUTS = s.lastSentCfgVoiceHandle from rfl, hd]
    show (if s.lastSentCfgVoiceHandle = some v then []
      else [cfgToggleLine .SHOUTS v]) = _
    rw [if_neg hls]
  have h2 : listenShoutsSeg s = [listenShoutsLine w] := by
    unfold listenShoutsSeg
    rw [hp]
  refine ⟨langSeg s ++ optsSeg s ++ closeSeg s ++ favSeg s ++ listenSeg s ++
    cfgSeg s .OPEN ++ cfgSeg s .CLOSE,
    cfgSeg s .DEBUG ++ cfgSeg s .SAVE_WAV ++ cfgSeg s .DIALOGUE_SELECT ++
    cfgSeg s .WEAPONS ++ cfgSeg s .SPELLS ++ cfgSeg s .POWERS ++
    cfgSeg s .POTIONS, ?_⟩
  show langSeg s ++ optsSeg s ++ closeSeg s ++ favSeg s ++ listenSeg s ++
      cfgSeg s .OPEN ++ cfgSeg s .CLOSE ++ cfgSeg s .SHOUTS ++ cfgSeg s .DEBUG ++
      cfgSeg s .SAVE_WAV ++ cfgSeg s .DIALOGUE_SELECT ++ cfgSeg s .WEAPONS ++
      cfgSeg s .SPELLS ++ cfgSeg s .POWERS ++ cfgSeg s .POTIONS ++
      listenShoutsSeg s = _
  rw [h1, h2]
  simp [List.append_assoc]

/-- C2 witness: both the CFG-shouts toggle and the shout-listen toggle due
    in the same cycle. -/
theorem cycle_transmit_order_witness :
    bothShoutsDueState.desiredCfgVoiceHandle = some true ∧
    bothShoutsDueState.lastSentCfgVoiceHandle ≠ some true ∧
    bothShoutsDueState.pendingListenVoiceHandle = some true ∧
    (∃ pre mid, (serviceCycle bothShoutsDueState).lines =
      pre ++ cfgToggleLine .SHOUTS true :: (mid ++ [listenShoutsLine true])) :=
  ⟨rfl, by decide, rfl,
   (cycle_transmit_order bothShoutsDueState true true rfl (by decide) rfl).2⟩

/-- A `CFG|...` line starts with `C`, `F`. -/
theorem disc_cfgToggleLine (t : CfgToggle) (v : Bool) :
    disc (cfgToggleLine t v) = some ('C', 'F') := rfl

/-- A `LANG|...` line starts with `L`, `A`. -/
theorem disc_langLine (g : String) : disc (langLine g) = some ('L', 'A') := rfl

/-- An `OPEN|<count>` line starts with `O`, `P`. -/
theorem disc_openCountLine (n : Nat) : disc (openCountLine n) = some ('O', 'P') := rfl

/-- A sanitized `OPT|...` line starts with `O`, `P`. -/
theorem disc_optLine (o : String) : disc (optLine o) = some ('O', 'P') := rfl

/-- A `LISTEN|<0|1>` line starts with `L`, `I`. -/
theorem disc_listenLine (b : Bool) : disc (listenLine b) = some ('L', 'I') := rfl

/-- A `LISTEN|SHOUTS|<0|1>` line starts with `L`, `I`. -/
theorem disc_listenShoutsLine (b : Bool) :
    disc (listenShoutsLine b) = some ('L', 'I') := rfl

/-- A line with a `FAV|` split starts with `F`, `A`. -/
theorem disc_favLine (t : List Char) : disc ("FAV|".toList ++ t) = some ('F', 'A') := rfl

/-- Lines with different two-character discriminators are different. -/
theorem line_ne_of_disc {a b : List Char} {pa pb : Char × Char}
    (ha : disc a = some pa) (hb : disc b = some pb) (hne : pa ≠ pb) : a ≠ b := by
  intro he
  apply hne
  have h := congrArg disc he
  rw [ha, hb] at h
  exact Option.some.inj h

/-- A line absent from a list occurs zero times in it. -/
theorem count_eq_zero_of_ne_all {x : List Char} {L : List (List Char)}
    (h : ∀ l ∈ L, x ≠ l) : List.count x L = 0 :=
  List.count_eq_zero.mpr (fun hm => h x hm rfl)

/-- Every member of a language segment is a `LANG|` line. -/
theorem mem_langSeg {s : PipeState} {x : List Char} (h : x ∈ langSeg s) :
    ∃ g, x = langLine g := by
  unfold langSeg stickySegOut at h
  rcases hx : s.desiredGameLang with _ | g <;> rw [hx] at h
  · simp at h
  · simp at h
    exact ⟨g, h.2⟩

/-- Every member of a dialogue-options segment is an `OPEN|` header, a
    sanitized `OPT|` line, or the `END` terminator. -/
theorem mem_optsSeg {s : PipeState} {x : List Char} (h : x ∈ optsSeg s) :
    (∃ n, x = openCountLine n) ∨ (∃ o, x = optLine o) ∨ x = "END".toList := by
  unfold optsSeg at h
  rcases hx : s.pendingOptions with _ | opts <;> rw [hx] at h
  · simp at h
  · simp at h
    rcases h with h | h | h
    · exact .inl ⟨opts.length, h⟩
    · rcases h with ⟨o, _, ho⟩
      exact .inr (.inl ⟨o, ho.symm⟩)
    · exact .inr (.inr h)

/-- Every member of a close segment is the `CLOSE` line. -/
theorem mem_closeSeg {s : PipeState} {x : List Char} (h : x ∈ closeSeg s) :
    x = "CLOSE".toList := by
  unfold closeSeg at h
  split at h <;> simp at h
  exact h

/-- Every member of a listen segment is a `LISTEN|` line. -/
theorem mem_listenSeg {s : PipeState} {x : List Char} (h : x ∈ listenSeg s) :
    ∃ b, x = listenLine b := by
  unfold listenSeg at h
  rcases hx : s.pendingListen with _ | b <;> rw [hx] at h
  · simp at h
  · simp at h
    exact ⟨b, h⟩

/-- Every member of a shout-listen segment is a `LISTEN|SHOUTS|` line. -/
theorem mem_listenShoutsSeg {s : PipeState} {x : List Char} (h : x ∈ listenShoutsSeg s) :
    ∃ b, x = listenShoutsLine b := by
  unfold listenShoutsSeg at h
  rcases hx : s.pendingListenVoiceHandle with _ | b <;> rw [hx] at h
  · simp at h
  · simp at h
    exact ⟨b, h⟩

/-- Every member of a CFG segment for toggle `t` is a `CFG` line of `t`. -/
theorem mem_cfgSeg {s : PipeState} {t : CfgToggle} {x : List Char} (h : x ∈ cfgSeg s t) :
    ∃ d, x = cfgToggleLine t d := by
  unfold cfgSeg stickySegOut at h
  rcases hx : desiredCfg s t with _ | d <;> rw [hx] at h
  · simp at h
  · simp at h
    exact ⟨d, h.2⟩

/-- Distinct CFG lines come from distinct toggles/values. -/
theorem cfgToggleLine_inj :
    ∀ (t t' : CfgToggle) (v v' : Bool),
      cfgToggleLine t v = cfgToggleLine t' v' → t = t' ∧ v = v' := by decide

/-- A CFG line never occurs in the language segment. -/
theorem count_cfg_langSeg (s : PipeState) (t : CfgToggle) (v : Bool) :
    List.count (cfgToggleLine t v) (langSeg s) = 0 := by
  refine count_eq_zero_of_ne_all fun l hl => ?_
  obtain ⟨g, rfl⟩ := mem_langSeg hl
  exact line_ne_of_disc (disc_cfgToggleLine t v) (disc_langLine g) (by decide)

/-- A CFG line never occurs in the dialogue-options segment. -/
theorem count_cfg_optsSeg (s : PipeState) (t : CfgToggle) (v : Bool) :
    List.count (cfgToggleLine t v) (optsSeg s) = 0 := by
  refine count_eq_zero_of_ne_all fun l hl => ?_
  rcases mem_optsSeg hl with ⟨n, rfl⟩ | ⟨o, rfl⟩ | rfl
  · exact line_ne_of_disc (disc_cfgToggleLine t v) (disc_openCountLine n) (by decide)
  · exact line_ne_of_disc (disc_cfgToggleLine t v) (disc_optLine o) (by decide)
  · exact line_ne_of_disc (disc_cfgToggleLine t v) (show disc "END".toList = some ('E', 'N') from rfl) (by decide)

/-- A CFG line never occurs in the close segment. -/
theorem count_cfg_closeSeg (s : PipeState) (t : CfgToggle) (v : Bool) :
    List.count (cfgToggleLine t v) (closeSeg s) = 0 := by
  refine count_eq_zero_of_ne_all fun l hl => ?_
  rw [mem_closeSeg hl]
  exact line_ne_of_disc (disc_cfgToggleLine t v) (show disc "CLOSE".toList = some ('C', 'L') from rfl) (by decide)

/-- A CFG line never occurs in a well-formed favorites segment. -/
theorem count_cfg_favSeg (s : PipeState) (t : CfgToggle) (v : Bool)
    (hfav : favLinesWellFormed s) :
    List.count (cfgToggleLine t v) (favSeg s) = 0 := by
  refine count_eq_zero_of_ne_all fun l hl => ?_
  obtain ⟨u, rfl⟩ := hfav l hl
  exact line_ne_of_disc (disc_cfgToggleLine t v) (disc_favLine u) (by decide)

/-- A CFG line never occurs in the listen segment. -/
theorem count_cfg_listenSeg (s : PipeState) (t : CfgToggle) (v : Bool) :
    List.count (cfgToggleLine t v) (listenSeg s) = 0 := by
  refine count_eq_zero_of_ne_all fun l hl => ?_
  obtain ⟨b, rfl⟩ := mem_listenSeg hl
  exact line_ne_of_disc (disc_cfgToggleLine t v) (disc_listenLine b) (by decide)

/-- A CFG line never occurs in the shout-listen segment. -/
theorem count_cfg_listenShoutsSeg (s : PipeState) (t : CfgToggle) (v : Bool) :
    List.count (cfgToggleLine t v) (listenShoutsSeg s) = 0 := by
  refine count_eq_zero_of_ne_all fun l hl => ?_
  obtain ⟨b, rfl⟩ := mem_listenShoutsSeg hl
  exact line_ne_of_disc (disc_cfgToggleLine t v) (disc_listenShoutsLine b) (by decide)

/-- Occurrences of toggle `t`'s CFG line in toggle `t'`'s segment when `t`
    is due for retransmission and `t'` has no last-sent record. -/
theorem count_cfg_cfgSeg (s : PipeState) (t t' : CfgToggle) (v : Bool)
    (hd : desiredCfg s t = some v) (hls : lastSentCfg s t' = none) :
    List.count (cfgToggleLine t v) (cfgSeg s t') = if t = t' then 1 else 0 := by
  by_cases h : t = t'
  · subst h
    unfold cfgSeg stickySegOut
    rw [hd, hls]
    simp
  · rw [if_neg h]
    refine count_eq_zero_of_ne_all fun l hl => ?_
    obtain ⟨d, rfl⟩ := mem_cfgSeg hl
    intro he
    exact h (cfgToggleLine_inj t t' v d he).1

/-- A LANG line never occurs in any non-language segment. -/
theorem count_lang_optsSeg (s : PipeState) (g : String) :
    List.count (langLine g) (optsSeg s) = 0 := by
  refine count_eq_zero_of_ne_all fun l hl => ?_
  rcases mem_optsSeg hl with ⟨n, rfl⟩ | ⟨o, rfl⟩ | rfl
  · exact line_ne_of_disc (disc_langLine g) (disc_openCountLine n) (by decide)
  · exact line_ne_of_disc (disc_langLine g) (disc_optLine o) (by decide)
  · exact line_ne_of_disc (disc_langLine g) (show disc "END".toList = some ('E', 'N') from rfl) (by decide)

/-- A LANG line never occurs in the close segment. -/
theorem count_lang_closeSeg (s : PipeState) (g : String) :
    List.count (langLine g) (closeSeg s) = 0 := by
  refine count_eq_zero_of_ne_all fun l hl => ?_
  rw [mem_closeSeg hl]
  exact line_ne_of_disc (disc_langLine g) (show disc "CLOSE".toList = some ('C', 'L') from rfl) (by decide)

/-- A LANG line never occurs in a well-formed favorites segment. -/
theorem count_lang_favSeg (s : PipeState) (g : String)
    (hfav : favLinesWellFormed s) :
    List.count (langLine g) (favSeg s) = 0 := by
  refine count_eq_zero_of_ne_all fun l hl => ?_
  obtain ⟨u, rfl⟩ := hfav l hl
  exact line_ne_of_disc (disc_langLine g) (disc_favLine u) (by decide)

/-- A LANG line never occurs in the listen segment. -/
theorem count_lang_listenSeg (s : PipeState) (g : String) :
    List.count (langLine g) (listenSeg s) = 0 := by
  refine count_eq_zero_of_ne_all fun l hl => ?_
  obtain ⟨b, rfl⟩ := mem_listenSeg hl
  exact line_ne_of_disc (disc_langLine g) (disc_listenLine b) (by decide)

/-- A LANG line never occurs in the shout-listen segment. -/
theorem count_lang_listenShoutsSeg (s : PipeState) (g : String) :
    List.count (langLine g) (listenShoutsSeg s) = 0 := by
  refine count_eq_zero_of_ne_all fun l hl => ?_
  obtain ⟨b, rfl⟩ := mem_listenShoutsSeg hl
  exact line_ne_of_disc (disc_langLine g) (disc_listenShoutsLine b) (by decide)

/-- A LANG line never occurs in any CFG segment. -/
theorem count_lang_cfgSeg (s : PipeState) (g : String) (t : CfgToggle) :
    List.count (langLine g) (cfgSeg s t) = 0 := by
  refine count_eq_zero_of_ne_all fun l hl => ?_
  obtain ⟨d, rfl⟩ := mem_cfgSeg hl
  exact line_ne_of_disc (disc_langLine g) (disc_cfgToggleLine t d) (by decide)

/-- The language segment transmits the due language exactly once. -/
theorem count_lang_langSeg (s : PipeState) (g : String)
    (hd : s.desiredGameLang = some g) (hls : s.lastSentGameLang = none) :
    List.count (langLine g) (langSeg s) = 1 := by
  unfold langSeg stickySegOut
  rw [hd, hls]
  simp

/-- After `HandleDisconnect` from a connected state, every CFG `lastSent`
    record is cleared. -/
theorem lastSentCfg_handleDisconnect (s : PipeState) (hconn : s.connected = true) :
    ∀ u, lastSentCfg (handleDisconnect s) u = none := by
  intro u
  unfold handleDisconnect
  rw [if_neg (by simp [hconn])]
  cases u <;> rfl

/-- `HandleDisconnect` leaves every desired CFG value untouched. -/
theorem desiredCfg_handleDisconnect (s : PipeState) :
    ∀ u, desiredCfg (handleDisconnect s) u = desiredCfg s u := by
  intro u
  unfold handleDisconnect
  split
  · rfl
  · cases u <;> rfl

/-- `connectSuccess` leaves the sticky store untouched. -/
theorem sticky_connectSuccess (s : PipeState) :
    (∀ u, desiredCfg (connectSuccess s) u = desiredCfg s u) ∧
    (∀ u, lastSentCfg (connectSuccess s) u = lastSentCfg s u) ∧
    (connectSuccess s).desiredGameLang = s.desiredGameLang ∧
    (connectSuccess s).lastSentGameLang = s.lastSentGameLang :=
  ⟨fun u => by cases u <;> rfl, fun u => by cases u <;> rfl, rfl, rfl⟩

/-- The drain leaves every desired CFG value untouched. -/
theorem desiredCfg_serviceCycle (s : PipeState) (t : CfgToggle) :
    desiredCfg (serviceCycle s).state t = desiredCfg s t := by
  cases t <;> rfl

/-- The drain records `lastSent := desired` for every set CFG toggle. -/
theorem lastSentCfg_serviceCycle (s : PipeState) (t : CfgToggle) :
    lastSentCfg (serviceCycle s).state t =
      stickyNext (desiredCfg s t) (lastSentCfg s t) := by
  cases t <;> rfl

/-- A second drain immediately after a drain transmits nothing at all:
    every one-shot slot was cleared and every sticky toggle has
    `lastSent = desired`. -/
theorem cycle_after_drain_lines (s : PipeState) :
    (serviceCycle (serviceCycle s).state).lines = [] := by
  have hlang : langSeg (serviceCycle s).state = [] :=
    stickySegOut_after_drain s.desiredGameLang s.lastSentGameLang langLine
  have hcfg : ∀ t, cfgSeg (serviceCycle s).state t = [] := by
    intro t
    unfold cfgSeg
    rw [desiredCfg_serviceCycle, lastSentCfg_serviceCycle]
    exact stickySegOut_after_drain _ _ _
  show langSeg (serviceCycle s).state ++ optsSeg (serviceCycle s).state ++
      closeSeg (serviceCycle s).state ++ favSeg (serviceCycle s).state ++
      listenSeg (serviceCycle s).state ++ cfgSeg (serviceCycle s).state .OPEN ++
      cfgSeg (serviceCycle s).state .CLOSE ++ cfgSeg (serviceCycle s).state .SHOUTS ++
      cfgSeg (serviceCycle s).state .DEBUG ++ cfgSeg (serviceCycle s).state .SAVE_WAV ++
      cfgSeg (serviceCycle s).state .DIALOGUE_SELECT ++
      cfgSeg (serviceCycle s).state .WEAPONS ++ cfgSeg (serviceCycle s).state .SPELLS ++
      cfgSeg (serviceCycle s).state .POWERS ++ cfgSeg (serviceCycle s).state .POTIONS ++
      listenShoutsSeg (serviceCycle s).state = []
  rw [hlang, hcfg, hcfg, hcfg, hcfg, hcfg, hcfg, hcfg, hcfg, hcfg, hcfg]
  rfl

/-- In a cycle where every `lastSent` record is cleared, each set CFG toggle
    is transmitted exactly once with its desired value. -/
theorem count_cfg_in_cycle (s : PipeState) (t : CfgToggle) (v : Bool)
    (hfav : favLinesWellFormed s)
    (hd : desiredCfg s t = some v) (hls : ∀ u, lastSentCfg s u = none) :
    List.count (cfgToggleLine t v) (serviceCycle s).lines = 1 := by
  show List.count (cfgToggleLine t v)
      (langSeg s ++ optsSeg s ++ closeSeg s ++ favSeg s ++ listenSeg s ++
       cfgSeg s .OPEN ++ cfgSeg s .CLOSE ++ cfgSeg s .SHOUTS ++ cfgSeg s .DEBUG ++
       cfgSeg s .SAVE_WAV ++ cfgSeg s .DIALOGUE_SELECT ++ cfgSeg s .WEAPONS ++
       cfgSeg s .SPELLS ++ cfgSeg s .POWERS ++ cfgSeg s .POTIONS ++
       listenShoutsSeg s) = 1
  simp only [List.count_append]
  rw [count_cfg_langSeg, count_cfg_optsSeg, count_cfg_closeSeg,
    count_cfg_favSeg s t v hfav, count_cfg_listenSeg, count_cfg_listenShoutsSeg,
    count_cfg_cfgSeg s t .OPEN v hd (hls _), count_cfg_cfgSeg s t .CLOSE v hd (hls _),
    count_cfg_cfgSeg s t .SHOUTS v hd (hls _), count_cfg_cfgSeg s t .DEBUG v hd (hls _),
    count_cfg_cfgSeg s t .SAVE_WAV v hd (hls _),
    count_cfg_cfgSeg s t .DIALOGUE_SELECT v hd (hls _),
    count_cfg_cfgSeg s t .WEAPONS v hd (hls _), count_cfg_cfgSeg s t .SPELLS v hd (hls _),
    count_cfg_cfgSeg s t .POWERS v hd (hls _), count_cfg_cfgSeg s t .POTIONS v hd (hls _)]
  cases t <;> simp

/-- In a cycle where the language `lastSent` record is cleared, the set game
    language is transmitted exactly once. -/
theorem count_lang_in_cycle (s : PipeState) (g : String)
    (hfav : favLinesWellFormed s)
    (hd : s.desiredGameLang = some g) (hls : s.lastSentGameLang = none) :
    List.count (langLine g) (serviceCycle s).lines = 1 := by
  show List.count (langLine g)
      (langSeg s ++ optsSeg s ++ closeSeg s ++ favSeg s ++ listenSeg s ++
       cfgSeg s .OPEN ++ cfgSeg s .CLOSE ++ cfgSeg s .SHOUTS ++ cfgSeg s .DEBUG ++
       cfgSeg s .SAVE_WAV ++ cfgSeg s .DIALOGUE_SELECT ++ cfgSeg s .WEAPONS ++
       cfgSeg s .SPELLS ++ cfgSeg s .POWERS ++ cfgSeg s .POTIONS ++
       listenShoutsSeg s) = 1
  simp only [List.count_append]
  rw [count_lang_langSeg s g hd hls, count_lang_optsSeg, count_lang_closeSeg,
    count_lang_favSeg s g hfav, count_lang_listenSeg, count_lang_listenShoutsSeg,
    count_lang_cfgSeg, count_lang_cfgSeg, count_lang_cfgSeg, count_lang_cfgSeg,
    count_lang_cfgSeg, count_lang_cfgSeg, count_lang_cfgSeg, count_lang_cfgSeg,
    count_lang_cfgSeg, count_lang_cfgSeg]

/-- After `HandleDisconnect` from a connected state, the language `lastSent`
    record is cleared. -/
theorem lastSentGameLang_handleDisconnect (s : PipeState) (hconn : s.connected = true) :
    (handleDisconnect s).lastSentGameLang = none := by
  unfold handleDisconnect
  rw [if_neg (by simp [hconn])]

/-- `HandleDisconnect` leaves the desired game language untouched. -/
theorem desiredGameLang_handleDisconnect (s : PipeState) :
    (handleDisconnect s).desiredGameLang = s.desiredGameLang := by
  unfold handleDisconnect
  split <;> rfl

/-- The pending favorites slot survives a disconnect/reconnect. -/
theorem pendingFavorites_reconnect (s : PipeState) :
    (connectSuccess (handleDisconnect s)).pendingFavorites = s.pendingFavorites := by
  unfold connectSuccess handleDisconnect
  split <;> rfl

/-- The favorites segment is unchanged across a disconnect/reconnect. -/
theorem favSeg_reconnect (s : PipeState) :
    favSeg (connectSuccess (handleDisconnect s)) = favSeg s := by
  unfold favSeg
  rw [pendingFavorites_reconnect]

/-- A second `HandleDisconnect` after a disconnect is a no-op: the `lastSent`
    records are cleared exactly once, at disconnect time. -/
theorem handleDisconnect_idem (s : PipeState) (hconn : s.connected = true) :
    handleDisconnect (handleDisconnect s) = handleDisconnect s := by
  simp [handleDisconnect, hconn]

/-- C1: a disconnect clears every sticky `lastSent` record (exactly once, at
    disconnect time — a second disconnect is a no-op), the reconnect leaves
    the sticky store untouched, and the first service cycle after the
    reconnect retransmits every set CFG toggle and the set game language
    exactly once with their current desired values; afterwards `lastSent`
    equals `desired` again and the next cycle transmits nothing. -/
theorem sticky_resend_after_reconnect (s : PipeState)
    (hconn : s.connected = true) (hfav : favLinesWellFormed s) :
    (∀ u, lastSentCfg (handleDisconnect s) u = none) ∧
    (handleDisconnect s).lastSentGameLang = none ∧
    handleDisconnect (handleDisconnect s) = handleDisconnect s ∧
    (∀ t v, desiredCfg s t = some v →
      List.count (cfgToggleLine t v)
        (serviceCycle (connectSuccess (handleDisconnect s))).lines = 1 ∧
      lastSentCfg (serviceCycle (connectSuccess (handleDisconnect s))).state t = some v ∧
      desiredCfg (serviceCycle (connectSuccess (handleDisconnect s))).state t = some v) ∧
    (∀ g, s.desiredGameLang = some g →
      List.count (langLine g)
        (serviceCycle (connectSuccess (handleDisconnect s))).lines = 1 ∧
      (serviceCycle (connectSuccess (handleDisconnect s))).state.lastSentGameLang = some g) ∧
    (serviceCycle (serviceCycle (connectSuccess (handleDisconnect s))).state).lines = [] := by
  have hd2 : ∀ t, desiredCfg (connectSuccess (handleDisconnect s)) t = desiredCfg s t := by
    intro t
    rw [(sticky_connectSuccess (handleDisconnect s)).1 t, desiredCfg_handleDisconnect s t]
  have hls2 : ∀ u, lastSentCfg (connectSuccess (handleDisconnect s)) u = none := by
    intro u
    rw [(sticky_connectSuccess (handleDisconnect s)).2.1 u,
      lastSentCfg_handleDisconnect s hconn u]
  have hfav2 : favLinesWellFormed (connectSuccess (handleDisconnect s)) := by
    unfold favLinesWellFormed
    rw [favSeg_reconnect]
    exact hfav
  have hlang2 : (connectSuccess (handleDisconnect s)).desiredGameLang = s.desiredGameLang := by
    rw [(sticky_connectSuccess (handleDisconnect s)).2.2.1, desiredGameLang_handleDisconnect]
  have hlangls2 : (connectSuccess (handleDisconnect s)).lastSentGameLang = none := by
    rw [(sticky_connectSuccess (handleDisconnect s)).2.2.2,
      lastSentGameLang_handleDisconnect s hconn]
  refine ⟨lastSentCfg_handleDisconnect s hconn,
    lastSentGameLang_handleDisconnect s hconn,
    handleDisconnect_idem s hconn, ?_, ?_, cycle_after_drain_lines _⟩
  · intro t v hd
    refine ⟨count_cfg_in_cycle _ t v hfav2 (by rw [hd2 t, hd]) hls2, ?_, ?_⟩
    · rw [lastSentCfg_serviceCycle, hd2 t, hd]
      rfl
    · rw [desiredCfg_serviceCycle, hd2 t, hd]
  · intro g hg
    refine ⟨count_lang_in_cycle _ g hfav2 (by rw [hlang2, hg]) hlangls2, ?_⟩
    show stickyNext (connectSuccess (handleDisconnect s)).desiredGameLang
      (connectSuccess (handleDisconnect s)).lastSentGameLang = some g
    rw [hlang2, hg]
    rfl

/-- C1 witness: a connected state with a desired game language and a desired
    CFG-shouts value, both already acknowledged-sent before the disconnect. -/
theorem sticky_resend_after_reconnect_witness :
    connectedConfiguredState.connected = true ∧
    favLinesWellFormed connectedConfiguredState ∧
    desiredCfg connectedConfiguredState .SHOUTS = some true ∧
    connectedConfiguredState.desiredGameLang = some "en" ∧
    (List.count (cfgToggleLine .SHOUTS true)
      (serviceCycle (connectSuccess (handleDisconnect connectedConfiguredState))).lines = 1 ∧
     lastSentCfg (serviceCycle (connectSuccess
       (handleDisconnect connectedConfiguredState))).state .SHOUTS = some true ∧
     desiredCfg (serviceCycle (connectSuccess
       (handleDisconnect connectedConfiguredState))).state .SHOUTS = some true) ∧
    (List.count (langLine "en")
      (serviceCycle (connectSuccess (handleDisconnect connectedConfiguredState))).lines = 1 ∧
     (serviceCycle (connectSuccess
       (handleDisconnect connectedConfiguredState))).state.lastSentGameLang = some "en") ∧
    (serviceCycle (serviceCycle (connectSuccess
      (handleDisconnect connectedConfiguredState))).state).lines = [] := by
  have hfav : favLinesWellFormed connectedConfiguredState := by
    intro l hl
    simp [favSeg, connectedConfiguredState] at hl
  have h := sticky_resend_after_reconnect connectedConfiguredState rfl hfav
  exact ⟨rfl, hfav, rfl, rfl, h.2.2.2.1 .SHOUTS true rfl, h.2.2.2.2.1 "en" rfl,
    h.2.2.2.2.2⟩

/-- Favorite-field sanitization removes every `|`. -/
theorem bar_not_mem_sanitizeFavL (l : List Char) : '|' ∉ sanitizeFavL l := by
  intro hm
  obtain ⟨c, _, he⟩ := List.mem_map.mp hm
  unfold sanFavChar sanChar at he
  by_cases h1 : c = '|'
  · rw [if_pos h1] at he
    cases he
  · rw [if_neg h1] at he
    by_cases h2 : c = '\n' ∨ c = '\r'
    · rw [if_pos h2] at he
      cases he
    · rw [if_neg h2] at he
      exact h1 he

/-- Newline sanitization introduces no `|`. -/
theorem bar_not_mem_sanitizeL {l : List Char} (h : '|' ∉ l) : '|' ∉ sanitizeL l := by
  intro hm
  obtain ⟨c, hc, he⟩ := List.mem_map.mp hm
  unfold sanChar at he
  by_cases h2 : c = '\n' ∨ c = '\r'
  · rw [if_pos h2] at he
    cases he
  · rw [if_neg h2] at he
    rw [he] at hc
    exact h hc

/-- Splitting a separator-free field followed by a separator peels off the
    field. -/
theorem splitOnChar_append_nobar (a : List Char) (rest : List Char) (ha : '|' ∉ a) :
    splitOnChar '|' (a ++ '|' :: rest) = a :: splitOnChar '|' rest := by
  induction a with
  | nil =>
    simp [splitOnChar]
  | cons x a' ih =>
    have hx : ¬(x = '|') := fun he => ha (by rw [he]; exact List.mem_cons_self _ _)
    have ih' := ih (fun hc => ha (List.mem_cons_of_mem _ hc))
    simp only [List.cons_append, splitOnChar, List.append_eq]
    rw [if_neg hx, ih']

/-- Splitting a separator-free field yields that single field. -/
theorem splitOnChar_nobar (a : List Char) (ha : '|' ∉ a) :
    splitOnChar '|' a = [a] := by
  induction a with
  | nil => rfl
  | cons x a' ih =>
    have hx : ¬(x = '|') := fun he => ha (by rw [he]; exact List.mem_cons_self _ _)
    have ih' := ih (fun hc => ha (List.mem_cons_of_mem _ hc))
    simp only [splitOnChar]
    rw [if_neg hx, ih']

/-- Splitting an encoded shout line recovers its six fields. -/
theorem splitFavShout (e : ShoutEntry) (hfid : '|' ∉ e.formIdHex.toList) :
    splitOnChar '|' (favShoutLine e) =
      ["FAV".toList, "SHOUT".toList, sanitizeFavL e.plugin.toList,
       sanitizeL e.formIdHex.toList, sanitizeFavL e.name.toList,
       sanitizeFavL e.editorID.toList] := by
  have h1 : favShoutLine e =
      "FAV".toList ++ '|' :: ("SHOUT".toList ++ '|' ::
        (sanitizeFavL e.plugin.toList ++ '|' :: (sanitizeL e.formIdHex.toList ++ '|' ::
          (sanitizeFavL e.name.toList ++ '|' :: sanitizeFavL e.editorID.toList)))) := by
    unfold favShoutLine
    simp [List.append_assoc]
  rw [h1, splitOnChar_append_nobar _ _ (by decide), splitOnChar_append_nobar _ _ (by decide),
    splitOnChar_append_nobar _ _ (bar_not_mem_sanitizeFavL _),
    splitOnChar_append_nobar _ _ (bar_not_mem_sanitizeL hfid),
    splitOnChar_append_nobar _ _ (bar_not_mem_sanitizeFavL _),
    splitOnChar_nobar _ (bar_not_mem_sanitizeFavL _)]

/-- Splitting an encoded power line recovers its four fields. -/
theorem splitFavPower (e : PowerEntry) (hfid : '|' ∉ e.formIdHex.toList) :
    splitOnChar '|' (favPowerLine e) =
      ["FAV".toList, "POWER".toList, sanitizeL e.formIdHex.toList,
       sanitizeFavL e.name.toList] := by
  have h1 : favPowerLine e =
      "FAV".toList ++ '|' :: ("POWER".toList ++ '|' ::
        (sanitizeL e.formIdHex.toList ++ '|' :: sanitizeFavL e.name.toList)) := by
    unfold favPowerLine
    simp [List.append_assoc]
  rw [h1, splitOnChar_append_nobar _ _ (by decide), splitOnChar_append_nobar _ _ (by decide),
    splitOnChar_append_nobar _ _ (bar_not_mem_sanitizeL hfid),
    splitOnChar_nobar _ (bar_not_mem_sanitizeFavL _)]

/-- Splitting an encoded weapon line recovers its four fields. -/
theorem splitFavWeapon (e : ItemEntry) (hfid : '|' ∉ e.formIdHex.toList) :
    splitOnChar '|' (favWeaponLine e) =
      ["FAV".toList, "WEAPON".toList, sanitizeL e.formIdHex.toList,
       sanitizeFavL e.name.toList] := by
  have h1 : favWeaponLine e =
      "FAV".toList ++ '|' :: ("WEAPON".toList ++ '|' ::
        (sanitizeL e.formIdHex.toList ++ '|' :: sanitizeFavL e.name.toList)) := by
    unfold favWeaponLine
    simp [List.append_assoc]
  rw [h1, splitOnChar_append_nobar _ _ (by decide), splitOnChar_append_nobar _ _ (by decide),
    splitOnChar_append_nobar _ _ (bar_not_mem_sanitizeL hfid),
    splitOnChar_nobar _ (bar_not_mem_sanitizeFavL _)]

/-- Splitting an encoded spell line recovers its four fields. -/
theorem splitFavSpell (e : ItemEntry) (hfid : '|' ∉ e.formIdHex.toList) :
    splitOnChar '|' (favSpellLine e) =
      ["FAV".toList, "SPELL".toList, sanitizeL e.formIdHex.toList,
       sanitizeFavL e.name.toList] := by
  have h1 : favSpellLine e =
      "FAV".toList ++ '|' :: ("SPELL".toList ++ '|' ::
        (sanitizeL e.formIdHex.toList ++ '|' :: sanitizeFavL e.name.toList)) := by
    unfold favSpellLine
    simp [List.append_assoc]
  rw [h1, splitOnChar_append_nobar _ _ (by decide), splitOnChar_append_nobar _ _ (by decide),
    splitOnChar_append_nobar _ _ (bar_not_mem_sanitizeL hfid),
    splitOnChar_nobar _ (bar_not_mem_sanitizeFavL _)]

/-- Splitting an encoded potion line recovers its four fields. -/
theorem splitFavPotion (e : ItemEntry) (hfid : '|' ∉ e.formIdHex.toList) :
    splitOnChar '|' (favPotionLine e) =
      ["FAV".toList, "POTION".toList, sanitizeL e.formIdHex.toList,
       sanitizeFavL e.name.toList] := by
  have h1 : favPotionLine e =
      "FAV".toList ++ '|' :: ("POTION".toList ++ '|' ::
        (sanitizeL e.formIdHex.toList ++ '|' :: sanitizeFavL e.name.toList)) := by
    unfold favPotionLine
    simp [List.append_assoc]
  rw [h1, splitOnChar_append_nobar _ _ (by decide), splitOnChar_append_nobar _ _ (by decide),
    splitOnChar_append_nobar _ _ (bar_not_mem_sanitizeL hfid),
    splitOnChar_nobar _ (bar_not_mem_sanitizeFavL _)]

/-- The recognizer decodes an encoded shout line to the sanitized entry. -/
theorem decodeFav_shout (e : ShoutEntry) (hfid : '|' ∉ e.formIdHex.toList) :
    decodeFavLine (favShoutLine e) = some (FavEntry.shout (sanShoutEntry e)) := by
  unfold decodeFavLine
  rw [splitFavShout e hfid]
  simp [sanShoutEntry, sanitizeFavS, sanitizeS]

/-- The recognizer decodes an encoded power line to the sanitized entry. -/
theorem decodeFav_power (e : PowerEntry) (hfid : '|' ∉ e.formIdHex.toList) :
    decodeFavLine (favPowerLine e) = some (FavEntry.power (sanPowerEntry e)) := by
  unfold decodeFavLine
  rw [splitFavPower e hfid]
  simp [sanPowerEntry, sanitizeFavS, sanitizeS]

/-- The recognizer decodes an encoded weapon line to the sanitized entry. -/
theorem decodeFav_weapon (e : ItemEntry) (hfid : '|' ∉ e.formIdHex.toList) :
    decodeFavLine (favWeaponLine e) = some (FavEntry.weapon (sanItemEntry e)) := by
  unfold decodeFavLine
  rw [splitFavWeapon e hfid]
  simp [sanItemEntry, sanitizeFavS, sanitizeS]

/-- The recognizer decodes an encoded spell line to the sanitized entry. -/
theorem decodeFav_spell (e : ItemEntry) (hfid : '|' ∉ e.formIdHex.toList) :
    decodeFavLine (favSpellLine e) = some (FavEntry.spell (sanItemEntry e)) := by
  unfold decodeFavLine
  rw [splitFavSpell e hfid]
  simp [sanItemEntry, sanitizeFavS, sanitizeS]

/-- The recognizer decodes an encoded potion line to the sanitized entry. -/
theorem decodeFav_potion (e : ItemEntry) (hfid : '|' ∉ e.formIdHex.toList) :
    decodeFavLine (favPotionLine e) = some (FavEntry.potion (sanItemEntry e)) := by
  unfold decodeFavLine
  rw [splitFavPotion e hfid]
  simp [sanItemEntry, sanitizeFavS, sanitizeS]

/-- Decoding the encoded shout lines reproduces the sanitized entries. -/
theorem map_decode_shouts (shouts : List ShoutEntry)
    (h : ∀ e ∈ shouts, '|' ∉ e.formIdHex.toList) :
    (shouts.map favShoutLine).map decodeFavLine =
      shouts.map (fun e => some (FavEntry.shout (sanShoutEntry e))) := by
  induction shouts with
  | nil => rfl
  | cons e es ih =>
    simp only [List.map_cons]
    rw [decodeFav_shout e (h e (List.mem_cons_self _ _)),
      ih (fun x hx => h x (List.mem_cons_of_mem _ hx))]

/-- Decoding the encoded power lines reproduces the sanitized entries. -/
theorem map_decode_powers (powers : List PowerEntry)
    (h : ∀ e ∈ powers, '|' ∉ e.formIdHex.toList) :
    (powers.map favPowerLine).map decodeFavLine =
      powers.map (fun e => some (FavEntry.power (sanPowerEntry e))) := by
  induction powers with
  | nil => rfl
  | cons e es ih =>
    simp only [List.map_cons]
    rw [decodeFav_power e (h e (List.mem_cons_self _ _)),
      ih (fun x hx => h x (List.mem_cons_of_mem _ hx))]

/-- Decoding the encoded weapon lines reproduces the sanitized entries. -/
theorem map_decode_weapons (weapons : List ItemEntry)
    (h : ∀ e ∈ weapons, '|' ∉ e.formIdHex.toList) :
    (weapons.map favWeaponLine).map decodeFavLine =
      weapons.map (fun e => some (FavEntry.weapon (sanItemEntry e))) := by
  induction weapons with
  | nil => rfl
  | cons e es ih =>
    simp only [List.map_cons]
    rw [decodeFav_weapon e (h e (List.mem_cons_self _ _)),
      ih (fun x hx => h x (List.mem_cons_of_mem _ hx))]

/-- Decoding the encoded spell lines reproduces the sanitized entries. -/
theorem map_decode_spells (spells : List ItemEntry)
    (h : ∀ e ∈ spells, '|' ∉ e.formIdHex.toList) :
    (spells.map favSpellLine).map decodeFavLine =
      spells.map (fun e => some (FavEntry.spell (sanItemEntry e))) := by
  induction spells with
  | nil => rfl
  | cons e es ih =>
    simp only [List.map_cons]
    rw [decodeFav_spell e (h e (List.mem_cons_self _ _)),
      ih (fun x hx => h x (List.mem_cons_of_mem _ hx))]

/-- Decoding the encoded potion lines reproduces the sanitized entries. -/
theorem map_decode_potions (potions : List ItemEntry)
    (h : ∀ e ∈ potions, '|' ∉ e.formIdHex.toList) :
    (potions.map favPotionLine).map decodeFavLine =
      potions.map (fun e => some (FavEntry.potion (sanItemEntry e))) := by
  induction potions with
  | nil => rfl
  | cons e es ih =>
    simp only [List.map_cons]
    rw [decodeFav_potion e (h e (List.mem_cons_self _ _)),
      ih (fun x hx => h x (List.mem_cons_of_mem _ hx))]

/-- C7 counterexample: a power entry whose `formIdHex` contains `|` (a byte
    the encoder only strips from name-like fields, not form-id fields)
    produces a line with the wrong field count, which the boundary
    recognizer rejects — so the round-trip claim is false as stated for
    arbitrary batches. -/
theorem favorites_roundtrip_cex :
    (splitOnChar '|' (favPowerLine ⟨"0|0", "n"⟩)).length ≠ 4 ∧
    decodeFavLine (favPowerLine ⟨"0|0", "n"⟩) = none := by
  constructor <;> decide

/-- C7 (amended): for every favorites batch of N entries in which no
    `formIdHex` field contains the separator `|`, the encoded batch is
    exactly N+2 lines — `FAV|BEGIN`, one correctly-tagged line per entry in
    input order, `FAV|END` — every entry line re-splits on `|` into the
    expected field count, and the boundary recognizer reproduces the N typed
    entries in order with their fields in sanitized form. -/
theorem favorites_roundtrip (shouts : List ShoutEntry) (powers : List PowerEntry)
    (weapons spells potions : List ItemEntry)
    (hsh : ∀ e ∈ shouts, '|' ∉ e.formIdHex.toList)
    (hpw : ∀ e ∈ powers, '|' ∉ e.formIdHex.toList)
    (hwp : ∀ e ∈ weapons, '|' ∉ e.formIdHex.toList)
    (hsp : ∀ e ∈ spells, '|' ∉ e.formIdHex.toList)
    (hpt : ∀ e ∈ potions, '|' ∉ e.formIdHex.toList) :
    (favoritesLines shouts powers weapons spells potions).length =
      shouts.length + powers.length + weapons.length + spells.length +
      potions.length + 2 ∧
    (favoritesLines shouts powers weapons spells potions).head? =
      some "FAV|BEGIN".toList ∧
    (favoritesLines shouts powers weapons spells potions).getLast? =
      some "FAV|END".toList ∧
    (∀ e ∈ shouts, (splitOnChar '|' (favShoutLine e)).length = 6) ∧
    (∀ e ∈ powers, (splitOnChar '|' (favPowerLine e)).length = 4) ∧
    (∀ e ∈ weapons, (splitOnChar '|' (favWeaponLine e)).length = 4) ∧
    (∀ e ∈ spells, (splitOnChar '|' (favSpellLine e)).length = 4) ∧
    (∀ e ∈ potions, (splitOnChar '|' (favPotionLine e)).length = 4) ∧
    (((favoritesLines shouts powers weapons spells potions).drop 1).dropLast.map
        decodeFavLine =
      (favBatchEntries shouts powers weapons spells potions).map some) := by
  refine ⟨?_, rfl, ?_, ?_, ?_, ?_, ?_, ?_, ?_⟩
  · simp [favoritesLines]
    omega
  · show ("FAV|BEGIN".toList ::
      (shouts.map favShoutLine ++ powers.map favPowerLine ++
       weapons.map favWeaponLine ++ spells.map favSpellLine ++
       potions.map favPotionLine ++ ["FAV|END".toList])).getLast? =
      some "FAV|END".toList
    rw [show ("FAV|BEGIN".toList ::
      (shouts.map favShoutLine ++ powers.map favPowerLine ++
       weapons.map favWeaponLine ++ spells.map favSpellLine ++
       potions.map favPotionLine ++ ["FAV|END".toList])) =
      (("FAV|BEGIN".toList :: (shouts.map favShoutLine ++ powers.map favPowerLine ++
        weapons.map favWeaponLine ++ spells.map favSpellLine ++
        potions.map favPotionLine)) ++ ["FAV|END".toList]) by simp]
    rw [List.getLast?_concat]
  · intro e he
    rw [splitFavShout e (hsh e he)]
    rfl
  · intro e he
    rw [splitFavPower e (hpw e he)]
    rfl
  · intro e he
    rw [splitFavWeapon e (hwp e he)]
    rfl
  · intro e he
    rw [splitFavSpell e (hsp e he)]
    rfl
  · intro e he
    rw [splitFavPotion e (hpt e he)]
    rfl
  · show ((shouts.map favShoutLine ++ powers.map favPowerLine ++
      weapons.map favWeaponLine ++ spells.map favSpellLine ++
      potions.map favPotionLine ++ ["FAV|END".toList]).dropLast.map decodeFavLine) = _
    rw [List.dropLast_concat]
    unfold favBatchEntries
    simp only [List.map_append]
    rw [map_decode_shouts shouts hsh, map_decode_powers powers hpw,
      map_decode_weapons weapons hwp, map_decode_spells spells hsp,
      map_decode_potions potions hpt]
    simp [List.map_map]
    rfl

/-- C7 witness: a small batch with one shout, one power, and one weapon. -/
theorem favorites_roundtrip_witness :
    (∀ e ∈ [(⟨"Skyrim.esm", "0x1", "Name", "Ed"⟩ : ShoutEntry)], '|' ∉ e.formIdHex.toList) ∧
    (∀ e ∈ [(⟨"0x2", "P"⟩ : PowerEntry)], '|' ∉ e.formIdHex.toList) ∧
    (∀ e ∈ [(⟨"0x3", "W"⟩ : ItemEntry)], '|' ∉ e.formIdHex.toList) ∧
    ((favoritesLines [⟨"Skyrim.esm", "0x1", "Name", "Ed"⟩] [⟨"0x2", "P"⟩]
        [⟨"0x3", "W"⟩] [] []).length = 1 + 1 + 1 + 0 + 0 + 2 ∧
     (favoritesLines [⟨"Skyrim.esm", "0x1", "Name", "Ed"⟩] [⟨"0x2", "P"⟩]
        [⟨"0x3", "W"⟩] [] []).head? = some "FAV|BEGIN".toList ∧
     (favoritesLines [⟨"Skyrim.esm", "0x1", "Name", "Ed"⟩] [⟨"0x2", "P"⟩]
        [⟨"0x3", "W"⟩] [] []).getLast? = some "FAV|END".toList ∧
     (∀ e ∈ [(⟨"Skyrim.esm", "0x1", "Name", "Ed"⟩ : ShoutEntry)],
       (splitOnChar '|' (favShoutLine e)).length = 6) ∧
     (∀ e ∈ [(⟨"0x2", "P"⟩ : PowerEntry)],
       (splitOnChar '|' (favPowerLine e)).length = 4) ∧
     (∀ e ∈ [(⟨"0x3", "W"⟩ : ItemEntry)],
       (splitOnChar '|' (favWeaponLine e)).length = 4) ∧
     (∀ e ∈ ([] : List ItemEntry), (splitOnChar '|' (favSpellLine e)).length = 4) ∧
     (∀ e ∈ ([] : List ItemEntry), (splitOnChar '|' (favPotionLine e)).length = 4) ∧
     (((favoritesLines [⟨"Skyrim.esm", "0x1", "Name", "Ed"⟩] [⟨"0x2", "P"⟩]
        [⟨"0x3", "W"⟩] [] []).drop 1).dropLast.map decodeFavLine =
       (favBatchEntries [⟨"Skyrim.esm", "0x1", "Name", "Ed"⟩] [⟨"0x2", "P"⟩]
         [⟨"0x3", "W"⟩] [] []).map some)) :=
  ⟨by decide, by decide, by decide,
   favorites_roundtrip _ _ _ _ _ (by decide) (by decide) (by decide) (by decide) (by decide)⟩

end DVC
